import Mathlib

/-! # Key ceremony trustee (src/keyceremony/trustee.c)

A shallow embedding of the trustee side of the key ceremony.

* Machine integers (`uint32_t`) are natural numbers; the file only compares
  and copies them, so no arithmetic can wrap.
* `struct private_key` and `struct public_key` are declared outside this
  file; they are the type parameters `SK` and `PK`.
* `MAX_TRUSTEES` (max_values.h) is a parameter of every operation.
* The crypto primitives and the wire codec are collaborators declared
  outside this file; they are the records `Crypto` and `Serialize` of
  functions, passed to every operation.
* A fixed array `a[MAX_TRUSTEES]` is a function on slot numbers; every access
  `a[i]` is guarded by `i < MAX_TRUSTEES`, and an operation that would access
  a slot out of bounds, or that hits `assert(false)`, has no result (`none`).
-/

namespace KeyCeremony

/-! ## Status codes -/

/-- The status codes of `enum KeyCeremony_Trustee_status` used in trustee.c. -/
inductive KeyCeremony_Trustee_status where
  | KEYCEREMONY_TRUSTEE_SUCCESS
  | KEYCEREMONY_TRUSTEE_INSUFFICIENT_MEMORY
  | KEYCEREMONY_TRUSTEE_INVALID_PARAMS
  | KEYCEREMONY_TRUSTEE_SERIALIZE_ERROR
  | KEYCEREMONY_TRUSTEE_DESERIALIZE_ERROR
  | KEYCEREMONY_TRUSTEE_MISSING_PUBLIC_KEY
  | KEYCEREMONY_TRUSTEE_INVALID_KEY_SHARE
  deriving DecidableEq

/-- The status of the crypto collaborator. trustee.c names two members; every
other value of the enum reaches the `default:` branch of the switch. -/
inductive Crypto_status where
  | CRYPTO_SUCCESS
  | CRYPTO_INSUFFICIENT_MEMORY
  | CRYPTO_OTHER (code : Nat)
  deriving DecidableEq

/-- The status of a `struct serialize_state`. trustee.c names three members;
every other value of the enum is `SERIALIZE_STATE_OTHER`. -/
inductive serialize_status where
  | SERIALIZE_STATE_RESERVING
  | SERIALIZE_STATE_WRITING
  | SERIALIZE_STATE_READING
  | SERIALIZE_STATE_OTHER (code : Nat)
  deriving DecidableEq

open KeyCeremony_Trustee_status Crypto_status serialize_status

/-- The codec state `struct serialize_state`; `buf` is the byte buffer it
points to (`NULL` is the empty buffer). -/
structure serialize_state where
  status : serialize_status
  len : Nat
  offset : Nat
  buf : List Nat
  deriving DecidableEq

/-! ## Messages and their representations -/

/-- A serialized message at the boundary: `{ .len, .bytes }`. -/
structure message_bytes where
  len : Nat
  bytes : List Nat
  deriving DecidableEq

abbrev key_generated_message := message_bytes
abbrev all_keys_received_message := message_bytes
abbrev shares_generated_message := message_bytes
abbrev all_shares_received_message := message_bytes
abbrev shares_verified_message := message_bytes
abbrev trustee_state := message_bytes

/-- Representation `struct key_generated_rep`. -/
structure key_generated_rep (PK : Type) where
  trustee_index : Nat
  public_key : PK

/-- Representation `struct all_keys_received_rep`: the array `public_keys`. -/
structure all_keys_received_rep (PK : Type) where
  public_keys : Nat → PK

/-- One share record, `struct encrypted_key_share`. -/
structure encrypted_key_share (SK PK : Type) where
  private_key : SK
  recipient_public_key : PK
  deriving DecidableEq

/-- Representation `struct shares_generated_rep`. The local variable is not
initialised: a slot of `shares` is `none` until the operation writes it. -/
structure shares_generated_rep (SK PK : Type) where
  trustee_index : Nat
  num_trustees : Nat
  shares : Nat → Option (encrypted_key_share SK PK)

/-- Representation `struct all_shares_received_rep`: the matrix `shares`. -/
structure all_shares_received_rep (SK PK : Type) where
  shares : Nat → Nat → encrypted_key_share SK PK

/-- Representation `struct shares_verified_rep`. -/
structure shares_verified_rep where
  trustee_index : Nat
  verified : Bool
  deriving DecidableEq

/-- Representation `struct trustee_state_rep`. -/
structure trustee_state_rep (SK : Type) where
  index : Nat
  private_key : SK

/-! ## Collaborators -/

/-- The result `struct Crypto_gen_keypair_r`. -/
structure Crypto_gen_keypair_r (SK PK : Type) where
  status : Crypto_status
  private_key : SK
  public_key : PK

/-- The crypto primitives called by trustee.c. A copy function maps the
source to the value left in the destination. -/
structure Crypto (SK PK : Type) where
  Crypto_gen_keypair : Nat → Crypto_gen_keypair_r SK PK
  Crypto_private_key_copy : SK → SK
  Crypto_public_key_copy : PK → PK
  Crypto_public_key_equal : PK → PK → Bool

/-- The wire codec called by trustee.c. A reserve, allocate or write function
maps the codec state before the call to the one after; a read function
returns the state after the call and the contents of the caller's
representation after the call (decoded fully, or as far as the read got). -/
structure Serialize (SK PK : Type) where
  Serialize_allocate : serialize_state → serialize_state
  Serialize_reserve_key_generated :
    serialize_state → key_generated_rep PK → serialize_state
  Serialize_write_key_generated :
    serialize_state → key_generated_rep PK → serialize_state
  Serialize_read_all_keys_received :
    serialize_state → serialize_state × all_keys_received_rep PK
  Serialize_reserve_shares_generated :
    serialize_state → shares_generated_rep SK PK → serialize_state
  Serialize_write_shares_generated :
    serialize_state → shares_generated_rep SK PK → serialize_state
  Serialize_read_all_shares_received :
    serialize_state → serialize_state × all_shares_received_rep SK PK
  Serialize_reserve_shares_verified :
    serialize_state → shares_verified_rep → serialize_state
  Serialize_write_shares_verified :
    serialize_state → shares_verified_rep → serialize_state
  Serialize_reserve_trustee_state :
    serialize_state → trustee_state_rep SK → serialize_state
  Serialize_write_trustee_state :
    serialize_state → trustee_state_rep SK → serialize_state

/-- The initial codec state of every serialization in trustee.c:
`{ RESERVING, len = 0, offset = 0, buf = NULL }`. -/
def reserving_state : serialize_state :=
  { status := SERIALIZE_STATE_RESERVING, len := 0, offset := 0, buf := [] }

/-- The initial codec state of every deserialization in trustee.c:
`{ READING, len = in_message.len, offset = 0, buf = in_message.bytes }`. -/
def reading_state (in_message : message_bytes) : serialize_state :=
  { status := SERIALIZE_STATE_READING, len := in_message.len, offset := 0,
    buf := in_message.bytes }

/-- The three codec calls that serialize a `key_generated` representation:
reserve, allocate, write, from the initial reserving state. -/
def serialize_key_generated {SK PK : Type} (z : Serialize SK PK)
    (message_rep : key_generated_rep PK) : serialize_state :=
  let state := z.Serialize_reserve_key_generated reserving_state message_rep
  let state := z.Serialize_allocate state
  z.Serialize_write_key_generated state message_rep

/-- The three codec calls that serialize a `shares_generated` representation. -/
def serialize_shares_generated {SK PK : Type} (z : Serialize SK PK)
    (out_message_rep : shares_generated_rep SK PK) : serialize_state :=
  let state := z.Serialize_reserve_shares_generated reserving_state out_message_rep
  let state := z.Serialize_allocate state
  z.Serialize_write_shares_generated state out_message_rep

/-- The three codec calls that serialize a `shares_verified` representation. -/
def serialize_shares_verified {SK PK : Type} (z : Serialize SK PK)
    (out_message_rep : shares_verified_rep) : serialize_state :=
  let state := z.Serialize_reserve_shares_verified reserving_state out_message_rep
  let state := z.Serialize_allocate state
  z.Serialize_write_shares_verified state out_message_rep

/-- The three codec calls that serialize a `trustee_state` representation. -/
def serialize_trustee_state {SK PK : Type} (z : Serialize SK PK)
    (rep : trustee_state_rep SK) : serialize_state :=
  let state := z.Serialize_reserve_trustee_state reserving_state rep
  let state := z.Serialize_allocate state
  z.Serialize_write_trustee_state state rep

/-! ## The trustee -/

/-- The trustee state `struct KeyCeremony_Trustee_s`. -/
structure KeyCeremony_Trustee_s (SK PK : Type) where
  num_trustees : Nat
  threshold : Nat
  index : Nat
  private_key : SK
  public_keys : Nat → PK

/-- The result `struct KeyCeremony_Trustee_new_r`; `trustee` is `none` when
the field is not set. -/
structure KeyCeremony_Trustee_new_r (SK PK : Type) where
  status : KeyCeremony_Trustee_status
  trustee : Option (KeyCeremony_Trustee_s SK PK)

/-- `KeyCeremony_Trustee_new`. The argument `malloc` is what the allocator
returns: `none` for `NULL`, or a block with arbitrary contents. -/
def KeyCeremony_Trustee_new {SK PK : Type} (MAX_TRUSTEES : Nat)
    (malloc : Option (KeyCeremony_Trustee_s SK PK))
    (num_trustees threshold index : Nat) : KeyCeremony_Trustee_new_r SK PK :=
  let status := KEYCEREMONY_TRUSTEE_SUCCESS
  let status :=
    if ¬(1 ≤ threshold ∧ threshold ≤ num_trustees ∧ num_trustees ≤ MAX_TRUSTEES) then
      KEYCEREMONY_TRUSTEE_INVALID_PARAMS
    else status
  -- Allocate the trustee
  let trustee := if status = KEYCEREMONY_TRUSTEE_SUCCESS then malloc else none
  let status :=
    if status = KEYCEREMONY_TRUSTEE_SUCCESS ∧ trustee.isNone then
      KEYCEREMONY_TRUSTEE_INSUFFICIENT_MEMORY
    else status
  -- Initialize the trustee
  let trustee :=
    if status = KEYCEREMONY_TRUSTEE_SUCCESS then
      trustee.map fun blk =>
        { blk with num_trustees := num_trustees, threshold := threshold, index := index }
    else trustee
  { status := status, trustee := trustee }

/-- The result `struct KeyCeremony_Trustee_generate_key_r`; `message` is
`none` when the field is not set. -/
structure KeyCeremony_Trustee_generate_key_r where
  status : KeyCeremony_Trustee_status
  message : Option key_generated_message
  deriving DecidableEq

/-- What a call of `KeyCeremony_Trustee_generate_key` leaves behind: the
returned `result`, the trustee `t` after the call, and the local
`message_rep` handed to the codec (`none` when it was never built). -/
structure generate_key_run (SK PK : Type) where
  result : KeyCeremony_Trustee_generate_key_r
  t : KeyCeremony_Trustee_s SK PK
  message_rep : Option (key_generated_rep PK)

/-- `KeyCeremony_Trustee_generate_key`. -/
def KeyCeremony_Trustee_generate_key {SK PK : Type} (MAX_TRUSTEES : Nat)
    (c : Crypto SK PK) (z : Serialize SK PK) (t : KeyCeremony_Trustee_s SK PK) :
    Option (generate_key_run SK PK) :=
  -- Generate the keypair
  let crypto_result := c.Crypto_gen_keypair t.threshold
  let switch : Option KeyCeremony_Trustee_status :=
    match crypto_result.status with
    | CRYPTO_INSUFFICIENT_MEMORY => some KEYCEREMONY_TRUSTEE_INSUFFICIENT_MEMORY
    | CRYPTO_SUCCESS => some KEYCEREMONY_TRUSTEE_SUCCESS
    | CRYPTO_OTHER _ => none
  switch.bind fun status =>
    if status = KEYCEREMONY_TRUSTEE_SUCCESS then
      if t.index < MAX_TRUSTEES then
        let t1 : KeyCeremony_Trustee_s SK PK :=
          { t with
            private_key := c.Crypto_private_key_copy crypto_result.private_key
            public_keys := Function.update t.public_keys t.index
              (c.Crypto_public_key_copy crypto_result.public_key) }
        -- Build the message
        let message_rep : key_generated_rep PK :=
          { trustee_index := t1.index
            public_key := c.Crypto_public_key_copy (t1.public_keys t1.index) }
        -- Serialize the message
        let state := serialize_key_generated z message_rep
        if state.status ≠ SERIALIZE_STATE_WRITING then
          some { result := { status := KEYCEREMONY_TRUSTEE_SERIALIZE_ERROR, message := none }
                 t := t1, message_rep := some message_rep }
        else
          some { result := { status := status
                             message := some { len := state.len, bytes := state.buf } }
                 t := t1, message_rep := some message_rep }
      else none
    else some { result := { status := status, message := none }, t := t, message_rep := none }

/-- The result `struct KeyCeremony_Trustee_generate_shares_r`. -/
structure KeyCeremony_Trustee_generate_shares_r where
  status : KeyCeremony_Trustee_status
  message : Option shares_generated_message
  deriving DecidableEq

/-- What a call of `KeyCeremony_Trustee_generate_shares` leaves behind: the
returned `result`, the trustee `t` after the call, and the local
`out_message_rep` handed to the codec (`none` when it was never built). -/
structure generate_shares_run (SK PK : Type) where
  result : KeyCeremony_Trustee_generate_shares_r
  t : KeyCeremony_Trustee_s SK PK
  out_message_rep : Option (shares_generated_rep SK PK)

/-- The loop of `generate_shares` that copies the received keys:
`for (i = 0; i < n; i++) copy(&t->public_keys[i], &in_message_rep.public_keys[i])`,
from the slots `public_keys`; iteration `i` runs after iterations `0..i-1`. -/
def generate_shares_copy_loop {SK PK : Type} (MAX_TRUSTEES : Nat) (c : Crypto SK PK)
    (in_message_rep : all_keys_received_rep PK) : Nat → (Nat → PK) → Option (Nat → PK)
  | 0, public_keys => some public_keys
  | i + 1, public_keys =>
    (generate_shares_copy_loop MAX_TRUSTEES c in_message_rep i public_keys).bind fun pks =>
      if i < MAX_TRUSTEES then
        some (Function.update pks i (c.Crypto_public_key_copy (in_message_rep.public_keys i)))
      else none

/-- The loop of `generate_shares` that fills `out_message_rep.shares`:
`for (i = 0; i < n; i++) { copy(&shares[i].private_key, &t->private_key);
copy(&shares[i].recipient_public_key, &t->public_keys[i]); }`. -/
def generate_shares_build_loop {SK PK : Type} (MAX_TRUSTEES : Nat) (c : Crypto SK PK)
    (t : KeyCeremony_Trustee_s SK PK) :
    Nat → (Nat → Option (encrypted_key_share SK PK)) →
      Option (Nat → Option (encrypted_key_share SK PK))
  | 0, shares => some shares
  | i + 1, shares =>
    (generate_shares_build_loop MAX_TRUSTEES c t i shares).bind fun sh =>
      if i < MAX_TRUSTEES then
        some (Function.update sh i (some
          { private_key := c.Crypto_private_key_copy t.private_key
            recipient_public_key := c.Crypto_public_key_copy (t.public_keys i) }))
      else none

/-- `KeyCeremony_Trustee_generate_shares`. -/
def KeyCeremony_Trustee_generate_shares {SK PK : Type} (MAX_TRUSTEES : Nat)
    (c : Crypto SK PK) (z : Serialize SK PK) (t : KeyCeremony_Trustee_s SK PK)
    (in_message : all_keys_received_message) : Option (generate_shares_run SK PK) :=
  let status := KEYCEREMONY_TRUSTEE_SUCCESS
  -- Deserialize the input
  let read := z.Serialize_read_all_keys_received (reading_state in_message)
  let in_message_rep := read.2
  let status :=
    if read.1.status ≠ SERIALIZE_STATE_READING then KEYCEREMONY_TRUSTEE_DESERIALIZE_ERROR
    else status
  -- Check that my public key is present at t->index
  let check : Option KeyCeremony_Trustee_status :=
    if status = KEYCEREMONY_TRUSTEE_SUCCESS then
      if t.index < MAX_TRUSTEES then
        if !c.Crypto_public_key_equal (in_message_rep.public_keys t.index)
            (t.public_keys t.index) then
          some KEYCEREMONY_TRUSTEE_MISSING_PUBLIC_KEY
        else some status
      else none
    else some status
  check.bind fun status =>
    -- Copy other public keys into my state
    let copied : Option (Nat → PK) :=
      if status = KEYCEREMONY_TRUSTEE_SUCCESS then
        generate_shares_copy_loop MAX_TRUSTEES c in_message_rep t.num_trustees t.public_keys
      else some t.public_keys
    copied.bind fun public_keys =>
      let t1 : KeyCeremony_Trustee_s SK PK := { t with public_keys := public_keys }
      if status = KEYCEREMONY_TRUSTEE_SUCCESS then
        -- Build the message
        (generate_shares_build_loop MAX_TRUSTEES c t1 t1.num_trustees fun _ => none).bind
          fun shares =>
            let out_message_rep : shares_generated_rep SK PK :=
              { trustee_index := t1.index, num_trustees := t1.num_trustees, shares := shares }
            -- Serialize the message
            let state := serialize_shares_generated z out_message_rep
            if state.status ≠ SERIALIZE_STATE_WRITING then
              some { result := { status := KEYCEREMONY_TRUSTEE_SERIALIZE_ERROR
                                 message := none }
                     t := t1, out_message_rep := some out_message_rep }
            else
              some { result := { status := status
                                 message := some { len := state.len, bytes := state.buf } }
                     t := t1, out_message_rep := some out_message_rep }
      else
        some { result := { status := status, message := none }, t := t1
               out_message_rep := none }

/-- The result `struct KeyCeremony_Trustee_verify_shares_r`. -/
structure KeyCeremony_Trustee_verify_shares_r where
  status : KeyCeremony_Trustee_status
  message : Option shares_verified_message
  deriving DecidableEq

/-- What a call of `KeyCeremony_Trustee_verify_shares` leaves behind: the
returned `result`, the trustee `t` after the call, and the local
`out_message_rep` handed to the codec (`none` when it was never built). -/
structure verify_shares_run (SK PK : Type) where
  result : KeyCeremony_Trustee_verify_shares_r
  t : KeyCeremony_Trustee_s SK PK
  out_message_rep : Option shares_verified_rep

/-- The checking loop of `verify_shares`, run on the status the
deserialization left:
`for (i = 0; i < n; i++) { share = in_message_rep.shares[t->index][i];
if (!equal(&share.recipient_public_key, &t->public_keys[i])) status = INVALID_KEY_SHARE; }`. -/
def verify_shares_check_loop {SK PK : Type} (MAX_TRUSTEES : Nat) (c : Crypto SK PK)
    (t : KeyCeremony_Trustee_s SK PK) (in_message_rep : all_shares_received_rep SK PK) :
    Nat → KeyCeremony_Trustee_status → Option KeyCeremony_Trustee_status
  | 0, status => some status
  | i + 1, status =>
    (verify_shares_check_loop MAX_TRUSTEES c t in_message_rep i status).bind fun st =>
      if t.index < MAX_TRUSTEES ∧ i < MAX_TRUSTEES then
        let share := in_message_rep.shares t.index i
        if !c.Crypto_public_key_equal share.recipient_public_key (t.public_keys i) then
          some KEYCEREMONY_TRUSTEE_INVALID_KEY_SHARE
        else some st
      else none

/-- `KeyCeremony_Trustee_verify_shares`. -/
def KeyCeremony_Trustee_verify_shares {SK PK : Type} (MAX_TRUSTEES : Nat)
    (c : Crypto SK PK) (z : Serialize SK PK) (t : KeyCeremony_Trustee_s SK PK)
    (in_message : all_shares_received_message) : Option (verify_shares_run SK PK) :=
  let status := KEYCEREMONY_TRUSTEE_SUCCESS
  -- Deserialize the input
  let read := z.Serialize_read_all_shares_received (reading_state in_message)
  let in_message_rep := read.2
  let status :=
    if read.1.status ≠ SERIALIZE_STATE_READING then KEYCEREMONY_TRUSTEE_DESERIALIZE_ERROR
    else status
  -- Check that all the shares meant for me match the public keys previously received
  (verify_shares_check_loop MAX_TRUSTEES c t in_message_rep t.threshold status).bind
    fun status =>
      if status = KEYCEREMONY_TRUSTEE_SUCCESS then
        -- Build the message
        let out_message_rep : shares_verified_rep :=
          { trustee_index := t.index, verified := true }
        -- Serialize the message
        let state := serialize_shares_verified z out_message_rep
        if state.status ≠ SERIALIZE_STATE_WRITING then
          some { result := { status := KEYCEREMONY_TRUSTEE_SERIALIZE_ERROR, message := none }
                 t := t, out_message_rep := some out_message_rep }
        else
          some { result := { status := status
                             message := some { len := state.len, bytes := state.buf } }
                 t := t, out_message_rep := some out_message_rep }
      else
        some { result := { status := status, message := none }, t := t
               out_message_rep := none }

/-- The result `struct KeyCeremony_Trustee_export_state_r`. -/
structure KeyCeremony_Trustee_export_state_r where
  status : KeyCeremony_Trustee_status
  state : Option trustee_state
  deriving DecidableEq

/-- What a call of `KeyCeremony_Trustee_export_state` leaves behind: the
returned `result`, the trustee `t` after the call, and the local `rep`
handed to the codec. -/
structure export_state_run (SK PK : Type) where
  result : KeyCeremony_Trustee_export_state_r
  t : KeyCeremony_Trustee_s SK PK
  rep : trustee_state_rep SK

/-- `KeyCeremony_Trustee_export_state`. -/
def KeyCeremony_Trustee_export_state {SK PK : Type} (c : Crypto SK PK) (z : Serialize SK PK)
    (t : KeyCeremony_Trustee_s SK PK) : export_state_run SK PK :=
  let status := KEYCEREMONY_TRUSTEE_SUCCESS
  let rep : trustee_state_rep SK :=
    { index := t.index, private_key := c.Crypto_private_key_copy t.private_key }
  -- Serialize the message
  let state := serialize_trustee_state z rep
  if state.status ≠ SERIALIZE_STATE_WRITING then
    { result := { status := KEYCEREMONY_TRUSTEE_SERIALIZE_ERROR, state := none }
      t := t, rep := rep }
  else
    { result := { status := status, state := some { len := state.len, bytes := state.buf } }
      t := t, rep := rep }

/-! ## The lifetime of a trustee -/

/-- Invariant I1: `1 ≤ threshold ≤ num_trustees ≤ MAX_TRUSTEES`. -/
def I1 {SK PK : Type} (MAX_TRUSTEES : Nat) (t : KeyCeremony_Trustee_s SK PK) : Prop :=
  1 ≤ t.threshold ∧ t.threshold ≤ t.num_trustees ∧ t.num_trustees ≤ MAX_TRUSTEES

/-- The trustee states a caller can reach: the trustee returned by a
successful `KeyCeremony_Trustee_new`, followed by any sequence of calls of the
four operations that return, with any collaborators and any inputs. -/
inductive Reachable {SK PK : Type} (MAX_TRUSTEES : Nat) :
    KeyCeremony_Trustee_s SK PK → Prop where
  | new (malloc : Option (KeyCeremony_Trustee_s SK PK)) (num_trustees threshold index : Nat)
      (t : KeyCeremony_Trustee_s SK PK)
      (hstatus : (KeyCeremony_Trustee_new MAX_TRUSTEES malloc num_trustees threshold
        index).status = KEYCEREMONY_TRUSTEE_SUCCESS)
      (htrustee : (KeyCeremony_Trustee_new MAX_TRUSTEES malloc num_trustees threshold
        index).trustee = some t) :
      Reachable MAX_TRUSTEES t
  | generate_key (c : Crypto SK PK) (z : Serialize SK PK) (t : KeyCeremony_Trustee_s SK PK)
      (out : generate_key_run SK PK) (ht : Reachable MAX_TRUSTEES t)
      (hrun : KeyCeremony_Trustee_generate_key MAX_TRUSTEES c z t = some out) :
      Reachable MAX_TRUSTEES out.t
  | generate_shares (c : Crypto SK PK) (z : Serialize SK PK)
      (t : KeyCeremony_Trustee_s SK PK) (in_message : all_keys_received_message)
      (out : generate_shares_run SK PK) (ht : Reachable MAX_TRUSTEES t)
      (hrun : KeyCeremony_Trustee_generate_shares MAX_TRUSTEES c z t in_message = some out) :
      Reachable MAX_TRUSTEES out.t
  | verify_shares (c : Crypto SK PK) (z : Serialize SK PK)
      (t : KeyCeremony_Trustee_s SK PK) (in_message : all_shares_received_message)
      (out : verify_shares_run SK PK) (ht : Reachable MAX_TRUSTEES t)
      (hrun : KeyCeremony_Trustee_verify_shares MAX_TRUSTEES c z t in_message = some out) :
      Reachable MAX_TRUSTEES out.t
  | export_state (c : Crypto SK PK) (z : Serialize SK PK) (t : KeyCeremony_Trustee_s SK PK)
      (ht : Reachable MAX_TRUSTEES t) :
      Reachable MAX_TRUSTEES (KeyCeremony_Trustee_export_state c z t).t

/-! ## A concrete instance

Keys are numbers and the codec writes one buffer entry per field. The instance
is used to run the operations on concrete inputs. -/

/-- A crypto collaborator over numeric keys: key generation returns the
keypair `(sk, pk)`, the copies copy and equality compares. -/
def nat_crypto (sk pk : Nat) : Crypto Nat Nat :=
  { Crypto_gen_keypair := fun _ =>
      { status := CRYPTO_SUCCESS, private_key := sk, public_key := pk }
    Crypto_private_key_copy := fun k => k
    Crypto_public_key_copy := fun k => k
    Crypto_public_key_equal := fun a b => decide (a = b) }

/-- A crypto collaborator over numeric keys whose key generation runs out of
memory. -/
def exhausted_crypto : Crypto Nat Nat :=
  { Crypto_gen_keypair := fun _ =>
      { status := CRYPTO_INSUFFICIENT_MEMORY, private_key := 0, public_key := 0 }
    Crypto_private_key_copy := fun k => k
    Crypto_public_key_copy := fun k => k
    Crypto_public_key_equal := fun a b => decide (a = b) }

/-- Reserve `n` entries. -/
def word_reserve (st : serialize_state) (n : Nat) : serialize_state :=
  if st.status = SERIALIZE_STATE_RESERVING then { st with len := st.len + n } else st

/-- Allocate the reserved length, which fails beyond `capacity` entries. -/
def word_allocate (capacity : Nat) (st : serialize_state) : serialize_state :=
  if st.status = SERIALIZE_STATE_RESERVING then
    if st.len ≤ capacity then
      { status := SERIALIZE_STATE_WRITING, len := st.len, offset := 0
        buf := List.replicate st.len 0 }
    else { st with status := SERIALIZE_STATE_OTHER 0 }
  else st

/-- Write the entries `ws` at the current offset. -/
def word_write (st : serialize_state) (ws : List Nat) : serialize_state :=
  if st.status = SERIALIZE_STATE_WRITING then
    if st.offset + ws.length ≤ st.len then
      { st with
        offset := st.offset + ws.length
        buf := st.buf.take st.offset ++ ws ++ st.buf.drop (st.offset + ws.length) }
    else { st with status := SERIALIZE_STATE_OTHER 1 }
  else st

/-- The entries of a `shares_generated` representation. -/
def word_shares (rep : shares_generated_rep Nat Nat) : List Nat :=
  rep.trustee_index :: rep.num_trustees ::
    (List.range rep.num_trustees).foldr
      (fun i acc =>
        match rep.shares i with
        | some share => share.private_key :: share.recipient_public_key :: acc
        | none => 0 :: 0 :: acc)
      []

/-- Read `[n, key 0, ..., key (n-1)]`; the slots are filled from the buffer
also when the length is wrong. -/
def word_read_all_keys_received (st : serialize_state) :
    serialize_state × all_keys_received_rep Nat :=
  let n := st.buf.getD 0 0
  let rep : all_keys_received_rep Nat := { public_keys := fun i => st.buf.getD (i + 1) 0 }
  if st.status = SERIALIZE_STATE_READING ∧ st.buf.length = n + 1 ∧ st.len = st.buf.length then
    ({ st with offset := n + 1 }, rep)
  else ({ st with status := SERIALIZE_STATE_OTHER 2 }, rep)

/-- Read `[n, k, share (0,0), ..., share (n-1,k-1)]`, a share being its
private key material followed by the recipient public key; the matrix is filled
from the buffer also when the length is wrong. -/
def word_read_all_shares_received (st : serialize_state) :
    serialize_state × all_shares_received_rep Nat Nat :=
  let n := st.buf.getD 0 0
  let k := st.buf.getD 1 0
  let rep : all_shares_received_rep Nat Nat :=
    { shares := fun r j =>
        { private_key := st.buf.getD (2 + 2 * (r * k + j)) 0
          recipient_public_key := st.buf.getD (3 + 2 * (r * k + j)) 0 } }
  if st.status = SERIALIZE_STATE_READING ∧ st.buf.length = 2 + 2 * (n * k) ∧
      st.len = st.buf.length then
    ({ st with offset := st.buf.length }, rep)
  else ({ st with status := SERIALIZE_STATE_OTHER 2 }, rep)

/-- A codec over numeric keys with one buffer entry per field, whose
allocation fails beyond `capacity` entries. -/
def word_codec (capacity : Nat) : Serialize Nat Nat :=
  { Serialize_allocate := word_allocate capacity
    Serialize_reserve_key_generated := fun st _ => word_reserve st 2
    Serialize_write_key_generated := fun st rep =>
      word_write st [rep.trustee_index, rep.public_key]
    Serialize_read_all_keys_received := word_read_all_keys_received
    Serialize_reserve_shares_generated := fun st rep =>
      word_reserve st (2 + 2 * rep.num_trustees)
    Serialize_write_shares_generated := fun st rep => word_write st (word_shares rep)
    Serialize_read_all_shares_received := word_read_all_shares_received
    Serialize_reserve_shares_verified := fun st _ => word_reserve st 2
    Serialize_write_shares_verified := fun st rep =>
      word_write st [rep.trustee_index, if rep.verified then 1 else 0]
    Serialize_reserve_trustee_state := fun st _ => word_reserve st 2
    Serialize_write_trustee_state := fun st rep => word_write st [rep.index, rep.private_key] }

/-- A freshly allocated trustee block, before initialisation. -/
def fresh_block : KeyCeremony_Trustee_s Nat Nat :=
  { num_trustees := 0, threshold := 0, index := 0, private_key := 0, public_keys := fun _ => 0 }

/-- The state of trustee `index` in a ceremony of three trustees with
threshold two, after the second round: private key `10 + index`, and
`20 + j` the public key of trustee `j`. -/
def sample_trustee (index : Nat) : KeyCeremony_Trustee_s Nat Nat :=
  { num_trustees := 3, threshold := 2, index := index, private_key := 10 + index
    public_keys := fun j => 20 + j }

/-! ## Theorems -/

section Loops

variable {SK PK : Type}

theorem generate_shares_copy_loop_eq (MAX_TRUSTEES : Nat) (c : Crypto SK PK)
    (rep : all_keys_received_rep PK) (n : Nat) (pks : Nat → PK) (hn : n ≤ MAX_TRUSTEES) :
    generate_shares_copy_loop MAX_TRUSTEES c rep n pks =
      some fun i => if i < n then c.Crypto_public_key_copy (rep.public_keys i) else pks i := by
  induction n with
  | zero => simp [generate_shares_copy_loop]
  | succ k ih =>
    have hk : k < MAX_TRUSTEES := by omega
    rw [generate_shares_copy_loop, ih (by omega)]
    simp only [Option.some_bind, hk, if_true, Option.some.injEq]
    funext i
    by_cases hik : i = k
    · subst hik; simp
    · rw [Function.update_noteq hik]
      by_cases h1 : i < k
      · have h2 : i < k + 1 := by omega
        simp [h1, h2]
      · have h2 : ¬ i < k + 1 := by omega
        simp [h1, h2]

theorem generate_shares_copy_loop_bound (MAX_TRUSTEES : Nat) (c : Crypto SK PK)
    (rep : all_keys_received_rep PK) (n : Nat) (pks r : Nat → PK)
    (h : generate_shares_copy_loop MAX_TRUSTEES c rep n pks = some r) : n ≤ MAX_TRUSTEES := by
  induction n generalizing r with
  | zero => omega
  | succ k ih =>
    rw [generate_shares_copy_loop] at h
    obtain ⟨r', h1, h2⟩ := Option.bind_eq_some.1 h
    have := ih r' h1
    by_cases hk : k < MAX_TRUSTEES
    · omega
    · simp [hk] at h2

theorem generate_shares_build_loop_eq (MAX_TRUSTEES : Nat) (c : Crypto SK PK)
    (t : KeyCeremony_Trustee_s SK PK) (n : Nat)
    (sh : Nat → Option (encrypted_key_share SK PK)) (hn : n ≤ MAX_TRUSTEES) :
    generate_shares_build_loop MAX_TRUSTEES c t n sh =
      some fun i =>
        if i < n then
          some { private_key := c.Crypto_private_key_copy t.private_key
                 recipient_public_key := c.Crypto_public_key_copy (t.public_keys i) }
        else sh i := by
  induction n with
  | zero => simp [generate_shares_build_loop]
  | succ k ih =>
    have hk : k < MAX_TRUSTEES := by omega
    rw [generate_shares_build_loop, ih (by omega)]
    simp only [Option.some_bind, hk, if_true, Option.some.injEq]
    funext i
    by_cases hik : i = k
    · subst hik; simp
    · rw [Function.update_noteq hik]
      by_cases h1 : i < k
      · have h2 : i < k + 1 := by omega
        simp [h1, h2]
      · have h2 : ¬ i < k + 1 := by omega
        simp [h1, h2]

theorem generate_shares_build_loop_bound (MAX_TRUSTEES : Nat) (c : Crypto SK PK)
    (t : KeyCeremony_Trustee_s SK PK) (n : Nat)
    (sh r : Nat → Option (encrypted_key_share SK PK))
    (h : generate_shares_build_loop MAX_TRUSTEES c t n sh = some r) : n ≤ MAX_TRUSTEES := by
  induction n generalizing r with
  | zero => omega
  | succ k ih =>
    rw [generate_shares_build_loop] at h
    obtain ⟨r', h1, h2⟩ := Option.bind_eq_some.1 h
    have := ih r' h1
    by_cases hk : k < MAX_TRUSTEES
    · omega
    · simp [hk] at h2

theorem verify_shares_check_loop_match (MAX_TRUSTEES : Nat) (c : Crypto SK PK)
    (t : KeyCeremony_Trustee_s SK PK) (rep : all_shares_received_rep SK PK) (n : Nat)
    (status : KeyCeremony_Trustee_status) (hidx : t.index < MAX_TRUSTEES)
    (hn : n ≤ MAX_TRUSTEES)
    (hall : ∀ i, i < n →
      c.Crypto_public_key_equal (rep.shares t.index i).recipient_public_key
        (t.public_keys i) = true) :
    verify_shares_check_loop MAX_TRUSTEES c t rep n status = some status := by
  induction n with
  | zero => simp [verify_shares_check_loop]
  | succ k ih =>
    have hk : k < MAX_TRUSTEES := by omega
    rw [verify_shares_check_loop, ih (by omega) (fun i hi => hall i (by omega))]
    simp [hidx, hk, hall k (by omega)]

theorem verify_shares_check_loop_mismatch (MAX_TRUSTEES : Nat) (c : Crypto SK PK)
    (t : KeyCeremony_Trustee_s SK PK) (rep : all_shares_received_rep SK PK) (n : Nat)
    (status : KeyCeremony_Trustee_status) (hidx : t.index < MAX_TRUSTEES)
    (hn : n ≤ MAX_TRUSTEES)
    (hex : ∃ i, i < n ∧
      c.Crypto_public_key_equal (rep.shares t.index i).recipient_public_key
        (t.public_keys i) = false) :
    verify_shares_check_loop MAX_TRUSTEES c t rep n status =
      some KEYCEREMONY_TRUSTEE_INVALID_KEY_SHARE := by
  induction n with
  | zero => obtain ⟨i, hi, _⟩ := hex; omega
  | succ k ih =>
    have hk : k < MAX_TRUSTEES := by omega
    rw [verify_shares_check_loop]
    cases hlast : c.Crypto_public_key_equal (rep.shares t.index k).recipient_public_key
        (t.public_keys k) with
    | false =>
      cases hprev : verify_shares_check_loop MAX_TRUSTEES c t rep k status with
      | none =>
        exfalso
        by_cases hall : ∀ i, i < k →
            c.Crypto_public_key_equal (rep.shares t.index i).recipient_public_key
              (t.public_keys i) = true
        · rw [verify_shares_check_loop_match MAX_TRUSTEES c t rep k status hidx (by omega)
            hall] at hprev
          cases hprev
        · push_neg at hall
          obtain ⟨i, hi, hne⟩ := hall
          rw [ih (by omega) ⟨i, hi, by simpa using hne⟩] at hprev
          cases hprev
      | some st => simp [hidx, hk, hlast]
    | true =>
      obtain ⟨i, hi, hne⟩ := hex
      have hik : i < k := by
        rcases Nat.lt_succ_iff_lt_or_eq.1 hi with h | h
        · exact h
        · subst h; rw [hlast] at hne; cases hne
      rw [ih (by omega) ⟨i, hik, hne⟩]
      simp [hidx, hk, hlast]

theorem verify_shares_check_loop_bound (MAX_TRUSTEES : Nat) (c : Crypto SK PK)
    (t : KeyCeremony_Trustee_s SK PK) (rep : all_shares_received_rep SK PK) (n : Nat)
    (status r : KeyCeremony_Trustee_status)
    (h : verify_shares_check_loop MAX_TRUSTEES c t rep n status = some r) :
    n = 0 ∨ (t.index < MAX_TRUSTEES ∧ n ≤ MAX_TRUSTEES) := by
  induction n generalizing r with
  | zero => exact Or.inl rfl
  | succ k ih =>
    rw [verify_shares_check_loop] at h
    obtain ⟨r', h1, h2⟩ := Option.bind_eq_some.1 h
    have hprev := ih r' h1
    by_cases hg : t.index < MAX_TRUSTEES ∧ k < MAX_TRUSTEES
    · exact Or.inr ⟨hg.1, by omega⟩
    · simp only [hg, if_false] at h2
      cases h2

end Loops


/-! ### Construction -/

section Construction

variable {SK PK : Type}

/-- C2. `KeyCeremony_Trustee_new` returns INVALID_PARAMS exactly when
`1 ≤ threshold ≤ num_trustees ≤ MAX_TRUSTEES` fails (whatever the allocator
does); so it does when `threshold = 0`, `threshold > num_trustees` or
`num_trustees > MAX_TRUSTEES`; and when the parameters are valid and the
allocator returns a block, it returns SUCCESS with that block, its
`num_trustees`, `threshold` and `index` set to the arguments. -/
theorem KeyCeremony_Trustee_new_validates (MAX_TRUSTEES : Nat)
    (malloc : Option (KeyCeremony_Trustee_s SK PK)) (num_trustees threshold index : Nat) :
    ((KeyCeremony_Trustee_new MAX_TRUSTEES malloc num_trustees threshold index).status =
        KEYCEREMONY_TRUSTEE_INVALID_PARAMS ↔
      ¬(1 ≤ threshold ∧ threshold ≤ num_trustees ∧ num_trustees ≤ MAX_TRUSTEES)) ∧
    (threshold = 0 ∨ threshold > num_trustees ∨ num_trustees > MAX_TRUSTEES →
      (KeyCeremony_Trustee_new MAX_TRUSTEES malloc num_trustees threshold index).status =
        KEYCEREMONY_TRUSTEE_INVALID_PARAMS) ∧
    (1 ≤ threshold ∧ threshold ≤ num_trustees ∧ num_trustees ≤ MAX_TRUSTEES →
      ∀ blk, malloc = some blk →
        ∃ t, KeyCeremony_Trustee_new MAX_TRUSTEES malloc num_trustees threshold index =
            { status := KEYCEREMONY_TRUSTEE_SUCCESS, trustee := some t } ∧
          t.num_trustees = num_trustees ∧ t.threshold = threshold ∧ t.index = index ∧
          t.private_key = blk.private_key ∧ t.public_keys = blk.public_keys) := by
  have key : (KeyCeremony_Trustee_new MAX_TRUSTEES malloc num_trustees threshold index).status =
        KEYCEREMONY_TRUSTEE_INVALID_PARAMS ↔
      ¬(1 ≤ threshold ∧ threshold ≤ num_trustees ∧ num_trustees ≤ MAX_TRUSTEES) := by
    by_cases h : 1 ≤ threshold ∧ threshold ≤ num_trustees ∧ num_trustees ≤ MAX_TRUSTEES
    · cases malloc <;> simp [KeyCeremony_Trustee_new, h]
    · simp [KeyCeremony_Trustee_new, h]
  refine ⟨key, ?_, ?_⟩
  · intro h
    apply key.2
    omega
  · intro h blk hblk
    subst hblk
    exact ⟨{ blk with num_trustees := num_trustees, threshold := threshold, index := index },
      by simp [KeyCeremony_Trustee_new, h], rfl, rfl, rfl, rfl, rfl⟩

/-- Witness for C2: three trustees with threshold two, at most five. -/
theorem KeyCeremony_Trustee_new_validates_witness :
    (1 ≤ 2 ∧ 2 ≤ 3 ∧ 3 ≤ 5) ∧
    ∃ t, KeyCeremony_Trustee_new 5 (some fresh_block) 3 2 0 =
        { status := KEYCEREMONY_TRUSTEE_SUCCESS, trustee := some t } ∧
      t.num_trustees = 3 ∧ t.threshold = 2 ∧ t.index = 0 ∧
      t.private_key = fresh_block.private_key ∧ t.public_keys = fresh_block.public_keys :=
  ⟨by decide,
    (KeyCeremony_Trustee_new_validates 5 (some fresh_block) 3 2 0).2.2 (by decide)
      fresh_block rfl⟩

end Construction

/-! ### Share generation: the own-key gate -/

section OwnKeyGate

variable {SK PK : Type}

/-- C3. When the input of `KeyCeremony_Trustee_generate_shares` deserializes
successfully and its public key at position `t.index` is not equal
(`Crypto_public_key_equal`) to `t.public_keys[t.index]`, the operation returns
MISSING_PUBLIC_KEY, with no message and the trustee unchanged, for every codec
and input, so whatever the other entries are. The trustee's index addresses
one of the `MAX_TRUSTEES` slots. -/
theorem generate_shares_own_key_gate (MAX_TRUSTEES : Nat) (c : Crypto SK PK)
    (z : Serialize SK PK) (t : KeyCeremony_Trustee_s SK PK)
    (in_message : all_keys_received_message) (hidx : t.index < MAX_TRUSTEES)
    (hread : (z.Serialize_read_all_keys_received (reading_state in_message)).1.status =
      SERIALIZE_STATE_READING)
    (hne : c.Crypto_public_key_equal
      ((z.Serialize_read_all_keys_received (reading_state in_message)).2.public_keys t.index)
      (t.public_keys t.index) = false) :
    KeyCeremony_Trustee_generate_shares MAX_TRUSTEES c z t in_message =
      some { result := { status := KEYCEREMONY_TRUSTEE_MISSING_PUBLIC_KEY, message := none }
             t := t, out_message_rep := none } := by
  simp [KeyCeremony_Trustee_generate_shares, hread, hidx, hne]

/-- Witness for C3: trustee 1 is handed the keys `20, 99, 22` while its own
public key is `21`. -/
theorem generate_shares_own_key_gate_witness :
    KeyCeremony_Trustee_generate_shares 5 (nat_crypto 0 0) (word_codec 64) (sample_trustee 1)
        { len := 4, bytes := [3, 20, 99, 22] } =
      some { result := { status := KEYCEREMONY_TRUSTEE_MISSING_PUBLIC_KEY, message := none }
             t := sample_trustee 1, out_message_rep := none } :=
  generate_shares_own_key_gate 5 (nat_crypto 0 0) (word_codec 64) (sample_trustee 1)
    { len := 4, bytes := [3, 20, 99, 22] } (by decide) (by decide) (by decide)

end OwnKeyGate

/-! ### Share verification -/

section VerifyShares

variable {SK PK : Type}

/-- The run of `verify_shares` when one of the first `t.threshold` comparisons
fails, whatever the deserialization did. -/
theorem verify_shares_mismatch_run (MAX_TRUSTEES : Nat) (c : Crypto SK PK)
    (z : Serialize SK PK) (t : KeyCeremony_Trustee_s SK PK)
    (in_message : all_shares_received_message) (hidx : t.index < MAX_TRUSTEES)
    (hthr : t.threshold ≤ MAX_TRUSTEES)
    (hex : ∃ i, i < t.threshold ∧
      c.Crypto_public_key_equal
        ((z.Serialize_read_all_shares_received (reading_state in_message)).2.shares
          t.index i).recipient_public_key
        (t.public_keys i) = false) :
    KeyCeremony_Trustee_verify_shares MAX_TRUSTEES c z t in_message =
      some { result := { status := KEYCEREMONY_TRUSTEE_INVALID_KEY_SHARE, message := none }
             t := t, out_message_rep := none } := by
  have hloop := fun status => verify_shares_check_loop_mismatch MAX_TRUSTEES c t
    (z.Serialize_read_all_shares_received (reading_state in_message)).2 t.threshold
    status hidx hthr hex
  simp [KeyCeremony_Trustee_verify_shares, hloop]

/-- The run of `verify_shares` when the input deserializes and none of the
first `t.threshold` comparisons fails: the outcome of the serialization
decides between SUCCESS and SERIALIZE_ERROR. -/
theorem verify_shares_match_run (MAX_TRUSTEES : Nat) (c : Crypto SK PK)
    (z : Serialize SK PK) (t : KeyCeremony_Trustee_s SK PK)
    (in_message : all_shares_received_message) (hidx : t.index < MAX_TRUSTEES)
    (hthr : t.threshold ≤ MAX_TRUSTEES)
    (hread : (z.Serialize_read_all_shares_received (reading_state in_message)).1.status =
      SERIALIZE_STATE_READING)
    (hall : ∀ i, i < t.threshold →
      c.Crypto_public_key_equal
        ((z.Serialize_read_all_shares_received (reading_state in_message)).2.shares
          t.index i).recipient_public_key
        (t.public_keys i) = true) :
    KeyCeremony_Trustee_verify_shares MAX_TRUSTEES c z t in_message =
      some
        (if (serialize_shares_verified z
              { trustee_index := t.index, verified := true }).status ≠
            SERIALIZE_STATE_WRITING then
          { result := { status := KEYCEREMONY_TRUSTEE_SERIALIZE_ERROR, message := none }
            t := t
            out_message_rep := some { trustee_index := t.index, verified := true } }
        else
          { result :=
              { status := KEYCEREMONY_TRUSTEE_SUCCESS
                message := some
                  { len := (serialize_shares_verified z
                      { trustee_index := t.index, verified := true }).len
                    bytes := (serialize_shares_verified z
                      { trustee_index := t.index, verified := true }).buf } }
            t := t
            out_message_rep := some { trustee_index := t.index, verified := true } }) := by
  have hloop := verify_shares_check_loop_match MAX_TRUSTEES c t
    (z.Serialize_read_all_shares_received (reading_state in_message)).2 t.threshold
    KEYCEREMONY_TRUSTEE_SUCCESS hidx hthr hall
  simp only [KeyCeremony_Trustee_verify_shares, hread, ne_eq, not_true_eq_false, if_false,
    hloop, Option.some_bind, if_true]
  split <;> rfl

/-- C4. For a trustee whose index and threshold stay within the
`MAX_TRUSTEES` slots and an input that deserializes successfully,
`KeyCeremony_Trustee_verify_shares` returns, and its status is
INVALID_KEY_SHARE exactly when some `i < t.threshold` has
`shares[t.index][i].recipient_public_key` not equal to `t.public_keys[i]`;
when no such `i` exists and the serialization ends in the WRITING state, it
returns SUCCESS with the serialized message of
`{trustee_index = t.index, verified = true}`. -/
theorem verify_shares_detects_mismatch (MAX_TRUSTEES : Nat) (c : Crypto SK PK)
    (z : Serialize SK PK) (t : KeyCeremony_Trustee_s SK PK)
    (in_message : all_shares_received_message) (hidx : t.index < MAX_TRUSTEES)
    (hthr : t.threshold ≤ MAX_TRUSTEES)
    (hread : (z.Serialize_read_all_shares_received (reading_state in_message)).1.status =
      SERIALIZE_STATE_READING) :
    ∃ out, KeyCeremony_Trustee_verify_shares MAX_TRUSTEES c z t in_message = some out ∧
      (out.result.status = KEYCEREMONY_TRUSTEE_INVALID_KEY_SHARE ↔
        ∃ i, i < t.threshold ∧
          c.Crypto_public_key_equal
            ((z.Serialize_read_all_shares_received (reading_state in_message)).2.shares
              t.index i).recipient_public_key
            (t.public_keys i) = false) ∧
      ((∀ i, i < t.threshold →
          c.Crypto_public_key_equal
            ((z.Serialize_read_all_shares_received (reading_state in_message)).2.shares
              t.index i).recipient_public_key
            (t.public_keys i) = true) →
        (serialize_shares_verified z { trustee_index := t.index, verified := true }).status =
          SERIALIZE_STATE_WRITING →
        out.result.status = KEYCEREMONY_TRUSTEE_SUCCESS ∧
        out.out_message_rep = some { trustee_index := t.index, verified := true } ∧
        out.result.message =
          some { len := (serialize_shares_verified z
                    { trustee_index := t.index, verified := true }).len
                 bytes := (serialize_shares_verified z
                    { trustee_index := t.index, verified := true }).buf }) := by
  by_cases hall : ∀ i, i < t.threshold →
      c.Crypto_public_key_equal
        ((z.Serialize_read_all_shares_received (reading_state in_message)).2.shares
          t.index i).recipient_public_key
        (t.public_keys i) = true
  · have hno : ¬ ∃ i, i < t.threshold ∧
        c.Crypto_public_key_equal
          ((z.Serialize_read_all_shares_received (reading_state in_message)).2.shares
            t.index i).recipient_public_key
          (t.public_keys i) = false := by
      rintro ⟨i, hi, hf⟩
      rw [hall i hi] at hf
      cases hf
    refine ⟨_, verify_shares_match_run MAX_TRUSTEES c z t in_message hidx hthr hread hall,
      ?_, ?_⟩
    · constructor
      · intro hst
        exfalso
        split at hst <;> cases hst
      · intro hex
        exact absurd hex hno
    · intro _ hw
      rw [if_neg (not_not.2 hw)]
      exact ⟨rfl, rfl, rfl⟩
  · have hex : ∃ i, i < t.threshold ∧
        c.Crypto_public_key_equal
          ((z.Serialize_read_all_shares_received (reading_state in_message)).2.shares
            t.index i).recipient_public_key
          (t.public_keys i) = false := by
      push_neg at hall
      obtain ⟨i, hi, hne⟩ := hall
      exact ⟨i, hi, by simpa using hne⟩
    refine ⟨_, verify_shares_mismatch_run MAX_TRUSTEES c z t in_message hidx hthr hex,
      ?_, ?_⟩
    · exact ⟨fun _ => hex, fun _ => rfl⟩
    · intro h
      exact absurd h hall

/-- Witness for C4: trustee 0 receives a matrix whose entry 1 of row 0 carries
the recipient key `99` instead of `21`. -/
theorem verify_shares_detects_mismatch_witness :
    ∃ out, KeyCeremony_Trustee_verify_shares 5 (nat_crypto 0 0) (word_codec 64)
        (sample_trustee 0)
        { len := 14, bytes := [3, 2, 10, 20, 10, 99, 11, 20, 11, 21, 12, 20, 12, 21] } =
          some out ∧
      out.result.status = KEYCEREMONY_TRUSTEE_INVALID_KEY_SHARE := by
  obtain ⟨out, hout, hiff, _⟩ := verify_shares_detects_mismatch 5 (nat_crypto 0 0)
    (word_codec 64) (sample_trustee 0)
    { len := 14, bytes := [3, 2, 10, 20, 10, 99, 11, 20, 11, 21, 12, 20, 12, 21] }
    (by decide) (by decide) (by decide)
  exact ⟨out, hout, hiff.2 ⟨1, by decide, by decide⟩⟩

/-- When the input fails to deserialize, the checking loop still runs on the
decoded matrix: the status is DESERIALIZE_ERROR only if none of the first
`t.threshold` comparisons fails, and INVALID_KEY_SHARE as soon as one does. -/
theorem verify_shares_malformed (MAX_TRUSTEES : Nat) (c : Crypto SK PK)
    (z : Serialize SK PK) (t : KeyCeremony_Trustee_s SK PK)
    (in_message : all_shares_received_message) (hidx : t.index < MAX_TRUSTEES)
    (hthr : t.threshold ≤ MAX_TRUSTEES)
    (hread : (z.Serialize_read_all_shares_received (reading_state in_message)).1.status ≠
      SERIALIZE_STATE_READING) :
    ((∀ i, i < t.threshold →
        c.Crypto_public_key_equal
          ((z.Serialize_read_all_shares_received (reading_state in_message)).2.shares
            t.index i).recipient_public_key
          (t.public_keys i) = true) →
      KeyCeremony_Trustee_verify_shares MAX_TRUSTEES c z t in_message =
        some { result := { status := KEYCEREMONY_TRUSTEE_DESERIALIZE_ERROR, message := none }
               t := t, out_message_rep := none }) ∧
    ((∃ i, i < t.threshold ∧
        c.Crypto_public_key_equal
          ((z.Serialize_read_all_shares_received (reading_state in_message)).2.shares
            t.index i).recipient_public_key
          (t.public_keys i) = false) →
      KeyCeremony_Trustee_verify_shares MAX_TRUSTEES c z t in_message =
        some { result := { status := KEYCEREMONY_TRUSTEE_INVALID_KEY_SHARE, message := none }
               t := t, out_message_rep := none }) := by
  constructor
  · intro hall
    have hloop := verify_shares_check_loop_match MAX_TRUSTEES c t
      (z.Serialize_read_all_shares_received (reading_state in_message)).2 t.threshold
      KEYCEREMONY_TRUSTEE_DESERIALIZE_ERROR hidx hthr hall
    simp [KeyCeremony_Trustee_verify_shares, hread, hloop]
  · intro hex
    exact verify_shares_mismatch_run MAX_TRUSTEES c z t in_message hidx hthr hex

/-- C5, at a failing input. Trustee 0 of a three-party ceremony (threshold
two, public keys `20, 21, 22`) receives a share matrix cut off after its first
share. The read leaves the READING state, yet the operation returns
INVALID_KEY_SHARE and not DESERIALIZE_ERROR: the checking loop runs on the
partially decoded matrix and overwrites the status. -/
theorem verify_shares_truncated_input_status :
    ((word_codec 64).Serialize_read_all_shares_received
        (reading_state { len := 4, bytes := [3, 2, 10, 20] })).1.status ≠
      SERIALIZE_STATE_READING ∧
    (KeyCeremony_Trustee_verify_shares 5 (nat_crypto 0 0) (word_codec 64) (sample_trustee 0)
        { len := 4, bytes := [3, 2, 10, 20] }).map (fun out => out.result) =
      some { status := KEYCEREMONY_TRUSTEE_INVALID_KEY_SHARE, message := none } := by
  constructor
  · decide
  · decide

/-- C9. `KeyCeremony_Trustee_verify_shares` is a pure check. On every trustee
and every input, valid or not, a call that returns leaves the trustee as it
was (`num_trustees`, `threshold`, `index`, `private_key` and every slot of
`public_keys`), and a second call with the same input on the resulting trustee
returns the same status, message and representation; and the call does return
whenever the trustee's index and threshold stay within the `MAX_TRUSTEES`
slots. -/
theorem verify_shares_pure (MAX_TRUSTEES : Nat) (c : Crypto SK PK) (z : Serialize SK PK)
    (t : KeyCeremony_Trustee_s SK PK) (in_message : all_shares_received_message) :
    (∀ out, KeyCeremony_Trustee_verify_shares MAX_TRUSTEES c z t in_message = some out →
      out.t = t ∧
      KeyCeremony_Trustee_verify_shares MAX_TRUSTEES c z out.t in_message = some out) ∧
    (t.index < MAX_TRUSTEES → t.threshold ≤ MAX_TRUSTEES →
      ∃ out, KeyCeremony_Trustee_verify_shares MAX_TRUSTEES c z t in_message = some out) := by
  constructor
  · intro out h
    have ht : out.t = t := by
      unfold KeyCeremony_Trustee_verify_shares at h
      obtain ⟨st, _, h2⟩ := Option.bind_eq_some.1 h
      dsimp only at h2
      split_ifs at h2 <;> (cases h2; rfl)
    exact ⟨ht, by rw [ht]; exact h⟩
  · intro hidx hthr
    by_cases hread : (z.Serialize_read_all_shares_received (reading_state in_message)).1.status
        = SERIALIZE_STATE_READING
    · by_cases hall : ∀ i, i < t.threshold →
          c.Crypto_public_key_equal
            ((z.Serialize_read_all_shares_received (reading_state in_message)).2.shares
              t.index i).recipient_public_key
            (t.public_keys i) = true
      · exact ⟨_, verify_shares_match_run MAX_TRUSTEES c z t in_message hidx hthr hread hall⟩
      · push_neg at hall
        obtain ⟨i, hi, hne⟩ := hall
        exact ⟨_, verify_shares_mismatch_run MAX_TRUSTEES c z t in_message hidx hthr
          ⟨i, hi, by simpa using hne⟩⟩
    · by_cases hall : ∀ i, i < t.threshold →
          c.Crypto_public_key_equal
            ((z.Serialize_read_all_shares_received (reading_state in_message)).2.shares
              t.index i).recipient_public_key
            (t.public_keys i) = true
      · exact ⟨_, (verify_shares_malformed MAX_TRUSTEES c z t in_message hidx hthr hread).1
          hall⟩
      · push_neg at hall
        obtain ⟨i, hi, hne⟩ := hall
        exact ⟨_, (verify_shares_malformed MAX_TRUSTEES c z t in_message hidx hthr hread).2
          ⟨i, hi, by simpa using hne⟩⟩

/-- Witness for C9: trustee 0 verifies the honest share matrix. -/
theorem verify_shares_pure_witness :
    ∃ out, KeyCeremony_Trustee_verify_shares 5 (nat_crypto 0 0) (word_codec 64)
        (sample_trustee 0)
        { len := 14, bytes := [3, 2, 10, 20, 10, 21, 11, 20, 11, 21, 12, 20, 12, 21] } =
          some out ∧
      out.t = sample_trustee 0 ∧
      KeyCeremony_Trustee_verify_shares 5 (nat_crypto 0 0) (word_codec 64) out.t
        { len := 14, bytes := [3, 2, 10, 20, 10, 21, 11, 20, 11, 21, 12, 20, 12, 21] } =
          some out := by
  obtain ⟨hframe, hdef⟩ := verify_shares_pure 5 (nat_crypto 0 0) (word_codec 64)
    (sample_trustee 0)
    { len := 14, bytes := [3, 2, 10, 20, 10, 21, 11, 20, 11, 21, 12, 20, 12, 21] }
  obtain ⟨out, hout⟩ := hdef (by decide) (by decide)
  exact ⟨out, hout, hframe out hout⟩

end VerifyShares

/-! ### Key generation -/

section GenerateKey

variable {SK PK : Type}

/-- C7. Whenever `KeyCeremony_Trustee_generate_key` returns SUCCESS and the
crypto collaborator returned the keypair `(sk, pk)` (its copy functions
copying), afterwards `t.private_key = sk` and `t.public_keys[t.index] = pk`;
the `key_generated` representation it serialized has `trustee_index` equal to
the trustee's index and `public_key` equal to the value now stored in
`t.public_keys[t.index]`, and the returned message is its serialization; every
other slot of `public_keys` and `num_trustees`, `threshold`, `index` are
unchanged. -/
theorem generate_key_postcondition (MAX_TRUSTEES : Nat) (c : Crypto SK PK)
    (z : Serialize SK PK) (t : KeyCeremony_Trustee_s SK PK) (out : generate_key_run SK PK)
    (sk : SK) (pk : PK)
    (hsk : ∀ k, c.Crypto_private_key_copy k = k) (hpk : ∀ k, c.Crypto_public_key_copy k = k)
    (hkp : c.Crypto_gen_keypair t.threshold =
      { status := CRYPTO_SUCCESS, private_key := sk, public_key := pk })
    (h : KeyCeremony_Trustee_generate_key MAX_TRUSTEES c z t = some out)
    (hs : out.result.status = KEYCEREMONY_TRUSTEE_SUCCESS) :
    out.t.private_key = sk ∧ out.t.public_keys out.t.index = pk ∧
    (∃ rep, out.message_rep = some rep ∧ rep.trustee_index = t.index ∧
      rep.public_key = out.t.public_keys out.t.index ∧
      (serialize_key_generated z rep).status = SERIALIZE_STATE_WRITING ∧
      out.result.message = some { len := (serialize_key_generated z rep).len
                                  bytes := (serialize_key_generated z rep).buf }) ∧
    (∀ i, i ≠ t.index → out.t.public_keys i = t.public_keys i) ∧
    out.t.num_trustees = t.num_trustees ∧ out.t.threshold = t.threshold ∧
    out.t.index = t.index := by
  unfold KeyCeremony_Trustee_generate_key at h
  simp only [hkp, Option.some_bind, if_true, hsk, hpk, Function.update_same] at h
  by_cases hidx : t.index < MAX_TRUSTEES
  · simp only [hidx, if_true] at h
    by_cases hw : (serialize_key_generated z
        { trustee_index := t.index, public_key := pk }).status = SERIALIZE_STATE_WRITING
    · simp only [hw, ne_eq, not_true_eq_false, if_false, Option.some.injEq] at h
      subst h
      refine ⟨rfl, by simp, ⟨_, rfl, rfl, by simp, hw, rfl⟩, ?_, rfl, rfl, rfl⟩
      intro i hi
      simp [Function.update_noteq hi]
    · simp only [hw, ne_eq, not_false_eq_true, if_true, Option.some.injEq] at h
      subst h
      cases hs
  · simp only [hidx, if_false] at h
    cases h

/-- Witness for C7: trustee 0 of three, on a fresh block, generates the
keypair `(10, 20)`. -/
theorem generate_key_postcondition_witness :
    ∃ out, KeyCeremony_Trustee_generate_key 5 (nat_crypto 10 20) (word_codec 64)
        { fresh_block with num_trustees := 3, threshold := 2, index := 0 } = some out ∧
      out.result = { status := KEYCEREMONY_TRUSTEE_SUCCESS
                     message := some { len := 2, bytes := [0, 20] } } ∧
      out.t.private_key = 10 ∧ out.t.public_keys out.t.index = 20 := by
  have h : KeyCeremony_Trustee_generate_key 5 (nat_crypto 10 20) (word_codec 64)
      { fresh_block with num_trustees := 3, threshold := 2, index := 0 } =
      some { result := { status := KEYCEREMONY_TRUSTEE_SUCCESS
                         message := some { len := 2, bytes := [0, 20] } }
             t := { num_trustees := 3, threshold := 2, index := 0, private_key := 10
                    public_keys := Function.update fresh_block.public_keys 0 20 }
             message_rep := some { trustee_index := 0, public_key := 20 } } := by
    rfl
  have hpost := generate_key_postcondition 5 (nat_crypto 10 20) (word_codec 64)
    { fresh_block with num_trustees := 3, threshold := 2, index := 0 } _ 10 20
    (fun _ => rfl) (fun _ => rfl) rfl h rfl
  exact ⟨_, h, rfl, hpost.1, hpost.2.1⟩

/-- A call of `KeyCeremony_Trustee_generate_key` that returns SUCCESS got a
keypair from the collaborator, stayed within the `MAX_TRUSTEES` slots, stored
the copies of both keys and serialized `{t.index, public_keys[t.index]}`. -/
theorem generate_key_success (MAX_TRUSTEES : Nat) (c : Crypto SK PK)
    (z : Serialize SK PK) (t : KeyCeremony_Trustee_s SK PK) (out : generate_key_run SK PK)
    (h : KeyCeremony_Trustee_generate_key MAX_TRUSTEES c z t = some out)
    (hs : out.result.status = KEYCEREMONY_TRUSTEE_SUCCESS) :
    (c.Crypto_gen_keypair t.threshold).status = CRYPTO_SUCCESS ∧ t.index < MAX_TRUSTEES ∧
    out.t =
      { t with
        private_key := c.Crypto_private_key_copy (c.Crypto_gen_keypair t.threshold).private_key
        public_keys := Function.update t.public_keys t.index
          (c.Crypto_public_key_copy (c.Crypto_gen_keypair t.threshold).public_key) } ∧
    out.message_rep = some
      { trustee_index := t.index
        public_key := c.Crypto_public_key_copy (out.t.public_keys t.index) } ∧
    ∀ rep, out.message_rep = some rep →
      (serialize_key_generated z rep).status = SERIALIZE_STATE_WRITING ∧
      out.result.message = some { len := (serialize_key_generated z rep).len
                                  bytes := (serialize_key_generated z rep).buf } := by
  unfold KeyCeremony_Trustee_generate_key at h
  cases hst : (c.Crypto_gen_keypair t.threshold).status with
  | CRYPTO_OTHER code => simp [hst] at h
  | CRYPTO_INSUFFICIENT_MEMORY =>
    simp [hst] at h
    subst h
    cases hs
  | CRYPTO_SUCCESS =>
    by_cases hidx : t.index < MAX_TRUSTEES
    swap
    · simp [hst, hidx] at h
    simp only [hst, Option.some_bind, if_true, hidx] at h
    split at h
    · cases h
      cases hs
    · rename_i hw
      cases h
      refine ⟨rfl, hidx, rfl, rfl, ?_⟩
      intro rep hrep
      cases hrep
      exact ⟨not_not.1 hw, rfl⟩

end GenerateKey

/-! ### Share generation: the message -/

section GenerateShares

variable {SK PK : Type}

/-- A call of `KeyCeremony_Trustee_generate_shares` that returns SUCCESS read
its input successfully, found its own key in it, stayed within the
`MAX_TRUSTEES` slots, and is determined by the closed forms of its two loops. -/
theorem generate_shares_success (MAX_TRUSTEES : Nat) (c : Crypto SK PK)
    (z : Serialize SK PK) (t : KeyCeremony_Trustee_s SK PK)
    (in_message : all_keys_received_message) (out : generate_shares_run SK PK)
    (h : KeyCeremony_Trustee_generate_shares MAX_TRUSTEES c z t in_message = some out)
    (hs : out.result.status = KEYCEREMONY_TRUSTEE_SUCCESS) :
    (z.Serialize_read_all_keys_received (reading_state in_message)).1.status =
      SERIALIZE_STATE_READING ∧
    t.index < MAX_TRUSTEES ∧ t.num_trustees ≤ MAX_TRUSTEES ∧
    c.Crypto_public_key_equal
      ((z.Serialize_read_all_keys_received (reading_state in_message)).2.public_keys t.index)
      (t.public_keys t.index) = true ∧
    out.t =
      { t with
        public_keys := fun i =>
          if i < t.num_trustees then
            c.Crypto_public_key_copy
              ((z.Serialize_read_all_keys_received (reading_state in_message)).2.public_keys i)
          else t.public_keys i } ∧
    out.out_message_rep = some
      { trustee_index := t.index, num_trustees := t.num_trustees
        shares := fun i =>
          if i < t.num_trustees then
            some { private_key := c.Crypto_private_key_copy t.private_key
                   recipient_public_key := c.Crypto_public_key_copy (out.t.public_keys i) }
          else none } ∧
    ∀ rep, out.out_message_rep = some rep →
      (serialize_shares_generated z rep).status = SERIALIZE_STATE_WRITING ∧
      out.result.message = some { len := (serialize_shares_generated z rep).len
                                  bytes := (serialize_shares_generated z rep).buf } := by
  unfold KeyCeremony_Trustee_generate_shares at h
  by_cases hread : (z.Serialize_read_all_keys_received (reading_state in_message)).1.status =
      SERIALIZE_STATE_READING
  swap
  · simp [hread] at h
    subst h
    cases hs
  by_cases hidx : t.index < MAX_TRUSTEES
  swap
  · simp [hread, hidx] at h
  cases heq : c.Crypto_public_key_equal
      ((z.Serialize_read_all_keys_received (reading_state in_message)).2.public_keys t.index)
      (t.public_keys t.index)
  · simp [hread, hidx, heq] at h
    subst h
    cases hs
  cases hcopy : generate_shares_copy_loop MAX_TRUSTEES c
      (z.Serialize_read_all_keys_received (reading_state in_message)).2 t.num_trustees
      t.public_keys with
  | none => simp [hread, hidx, heq, hcopy] at h
  | some pks =>
    have hn := generate_shares_copy_loop_bound MAX_TRUSTEES c _ _ _ _ hcopy
    rw [generate_shares_copy_loop_eq MAX_TRUSTEES c _ _ _ hn] at hcopy
    cases hcopy
    simp only [hread, ne_eq, not_true_eq_false, if_false, if_true, hidx, heq,
      Bool.not_true, Option.some_bind, Bool.false_eq_true,
      generate_shares_copy_loop_eq MAX_TRUSTEES c _ _ _ hn,
      generate_shares_build_loop_eq MAX_TRUSTEES c _ _ _ hn] at h
    split at h
    · cases h
      cases hs
    · rename_i hw
      cases h
      refine ⟨hread, hidx, hn, rfl, rfl, rfl, ?_⟩
      intro rep hrep
      cases hrep
      exact ⟨not_not.1 hw, rfl⟩

/-- C8. Whenever `KeyCeremony_Trustee_generate_shares` returns SUCCESS (the
public-key copy copying), the `shares_generated` representation it serialized
has `trustee_index = t.index`, `num_trustees = t.num_trustees`, and exactly one
share record for each recipient `i < t.num_trustees` and none beyond, the
record of recipient `i` carrying as `recipient_public_key` the `i`-th key of
the input, which is also `t.public_keys[i]` after the call; the returned
message is the serialization of that representation. -/
theorem generate_shares_fan_out (MAX_TRUSTEES : Nat) (c : Crypto SK PK)
    (z : Serialize SK PK) (t : KeyCeremony_Trustee_s SK PK)
    (in_message : all_keys_received_message) (out : generate_shares_run SK PK)
    (hpk : ∀ k, c.Crypto_public_key_copy k = k)
    (h : KeyCeremony_Trustee_generate_shares MAX_TRUSTEES c z t in_message = some out)
    (hs : out.result.status = KEYCEREMONY_TRUSTEE_SUCCESS) :
    ∃ rep, out.out_message_rep = some rep ∧
      rep.trustee_index = t.index ∧ rep.num_trustees = t.num_trustees ∧
      (∀ i, i < t.num_trustees → ∃ share, rep.shares i = some share ∧
        share.recipient_public_key =
          (z.Serialize_read_all_keys_received (reading_state in_message)).2.public_keys i ∧
        share.recipient_public_key = out.t.public_keys i) ∧
      (∀ i, t.num_trustees ≤ i → rep.shares i = none) ∧
      (serialize_shares_generated z rep).status = SERIALIZE_STATE_WRITING ∧
      out.result.message = some { len := (serialize_shares_generated z rep).len
                                  bytes := (serialize_shares_generated z rep).buf } := by
  obtain ⟨_, _, _, _, ht, hrep, hmsg⟩ :=
    generate_shares_success MAX_TRUSTEES c z t in_message out h hs
  refine ⟨_, hrep, rfl, rfl, ?_, ?_, (hmsg _ hrep).1, (hmsg _ hrep).2⟩
  · intro i hi
    refine ⟨_, if_pos hi, ?_, ?_⟩
    · simp only [hpk]
      rw [ht]
      simp [hi, hpk]
    · simp only [hpk]
  · intro i hi
    have : ¬ i < t.num_trustees := by omega
    simp only [this, if_false]

/-- Witness for C8: trustee 0 is handed the three keys `20, 21, 22`. -/
theorem generate_shares_fan_out_witness :
    ∃ out, KeyCeremony_Trustee_generate_shares 5 (nat_crypto 0 0) (word_codec 64)
        (sample_trustee 0) { len := 4, bytes := [3, 20, 21, 22] } = some out ∧
      out.result = { status := KEYCEREMONY_TRUSTEE_SUCCESS
                     message := some { len := 8, bytes := [0, 3, 10, 20, 10, 21, 10, 22] } } ∧
      ∃ rep, out.out_message_rep = some rep ∧
        rep.trustee_index = 0 ∧ rep.num_trustees = 3 ∧
        (∀ i, i < 3 → ∃ share, rep.shares i = some share ∧
          share.recipient_public_key =
            ((word_codec 64).Serialize_read_all_keys_received
              (reading_state { len := 4, bytes := [3, 20, 21, 22] })).2.public_keys i ∧
          share.recipient_public_key = out.t.public_keys i) ∧
        (∀ i, 3 ≤ i → rep.shares i = none) := by
  have hres : (KeyCeremony_Trustee_generate_shares 5 (nat_crypto 0 0) (word_codec 64)
      (sample_trustee 0) { len := 4, bytes := [3, 20, 21, 22] }).map (fun o => o.result) =
      some { status := KEYCEREMONY_TRUSTEE_SUCCESS
             message := some { len := 8, bytes := [0, 3, 10, 20, 10, 21, 10, 22] } } := by
    decide
  cases hrun : KeyCeremony_Trustee_generate_shares 5 (nat_crypto 0 0) (word_codec 64)
      (sample_trustee 0) { len := 4, bytes := [3, 20, 21, 22] } with
  | none =>
    rw [hrun] at hres
    cases hres
  | some out =>
    rw [hrun] at hres
    have hr : out.result =
        { status := KEYCEREMONY_TRUSTEE_SUCCESS,
          message := some { len := 8, bytes := [0, 3, 10, 20, 10, 21, 10, 22] } } := by
      simpa using hres
    obtain ⟨rep, h1, h2, h3, h4, h5, _⟩ := generate_shares_fan_out 5 (nat_crypto 0 0)
      (word_codec 64) (sample_trustee 0) { len := 4, bytes := [3, 20, 21, 22] } out
      (fun _ => rfl) hrun (by rw [hr])
    exact ⟨out, rfl, hr, rep, h1, h2, h3, h4, h5⟩

end GenerateShares

/-! ### Invariant I1 -/

section Lifetime

variable {SK PK : Type}

theorem new_success_trustee (MAX_TRUSTEES : Nat)
    (malloc : Option (KeyCeremony_Trustee_s SK PK)) (num_trustees threshold index : Nat)
    (t : KeyCeremony_Trustee_s SK PK)
    (hstatus : (KeyCeremony_Trustee_new MAX_TRUSTEES malloc num_trustees threshold
      index).status = KEYCEREMONY_TRUSTEE_SUCCESS)
    (htrustee : (KeyCeremony_Trustee_new MAX_TRUSTEES malloc num_trustees threshold
      index).trustee = some t) :
    (1 ≤ threshold ∧ threshold ≤ num_trustees ∧ num_trustees ≤ MAX_TRUSTEES) ∧
    t.num_trustees = num_trustees ∧ t.threshold = threshold ∧ t.index = index := by
  by_cases h : 1 ≤ threshold ∧ threshold ≤ num_trustees ∧ num_trustees ≤ MAX_TRUSTEES
  · cases malloc with
    | none => simp [KeyCeremony_Trustee_new, h] at hstatus
    | some blk =>
      simp [KeyCeremony_Trustee_new, h] at htrustee
      subst htrustee
      exact ⟨h, rfl, rfl, rfl⟩
  · simp [KeyCeremony_Trustee_new, h] at hstatus

theorem generate_key_frame (MAX_TRUSTEES : Nat) (c : Crypto SK PK) (z : Serialize SK PK)
    (t : KeyCeremony_Trustee_s SK PK) (out : generate_key_run SK PK)
    (h : KeyCeremony_Trustee_generate_key MAX_TRUSTEES c z t = some out) :
    out.t.num_trustees = t.num_trustees ∧ out.t.threshold = t.threshold ∧
    out.t.index = t.index := by
  unfold KeyCeremony_Trustee_generate_key at h
  obtain ⟨st, _, h2⟩ := Option.bind_eq_some.1 h
  dsimp only at h2
  split at h2
  · split at h2
    · split at h2 <;> (cases h2; exact ⟨rfl, rfl, rfl⟩)
    · cases h2
  · cases h2
    exact ⟨rfl, rfl, rfl⟩

theorem generate_shares_frame (MAX_TRUSTEES : Nat) (c : Crypto SK PK) (z : Serialize SK PK)
    (t : KeyCeremony_Trustee_s SK PK) (in_message : all_keys_received_message)
    (out : generate_shares_run SK PK)
    (h : KeyCeremony_Trustee_generate_shares MAX_TRUSTEES c z t in_message = some out) :
    out.t.num_trustees = t.num_trustees ∧ out.t.threshold = t.threshold ∧
    out.t.index = t.index ∧ out.t.private_key = t.private_key := by
  unfold KeyCeremony_Trustee_generate_shares at h
  obtain ⟨st, _, h2⟩ := Option.bind_eq_some.1 h
  obtain ⟨pks, _, h3⟩ := Option.bind_eq_some.1 h2
  dsimp only at h3
  split at h3
  · obtain ⟨sh, _, h4⟩ := Option.bind_eq_some.1 h3
    try dsimp only at h4
    split at h4 <;> (cases h4; exact ⟨rfl, rfl, rfl, rfl⟩)
  · cases h3
    exact ⟨rfl, rfl, rfl, rfl⟩

theorem verify_shares_frame (MAX_TRUSTEES : Nat) (c : Crypto SK PK) (z : Serialize SK PK)
    (t : KeyCeremony_Trustee_s SK PK) (in_message : all_shares_received_message)
    (out : verify_shares_run SK PK)
    (h : KeyCeremony_Trustee_verify_shares MAX_TRUSTEES c z t in_message = some out) :
    out.t = t := by
  unfold KeyCeremony_Trustee_verify_shares at h
  obtain ⟨st, _, h2⟩ := Option.bind_eq_some.1 h
  dsimp only at h2
  split_ifs at h2 <;> (cases h2; rfl)

theorem export_state_frame (c : Crypto SK PK) (z : Serialize SK PK)
    (t : KeyCeremony_Trustee_s SK PK) : (KeyCeremony_Trustee_export_state c z t).t = t := by
  unfold KeyCeremony_Trustee_export_state
  dsimp only
  split_ifs <;> rfl

/-- C10. Invariant I1 over the lifetime of a trustee. Every trustee returned
by a successful `KeyCeremony_Trustee_new` satisfies
`1 ≤ threshold ≤ num_trustees ≤ MAX_TRUSTEES`; none of `generate_key`,
`generate_shares`, `verify_shares`, `export_state` changes `num_trustees`,
`threshold` or `index`, on any input and whatever status it returns; hence I1
holds in every state reachable by any sequence of these operations. -/
theorem I1_lifetime (MAX_TRUSTEES : Nat) :
    (∀ (malloc : Option (KeyCeremony_Trustee_s SK PK)) (num_trustees threshold index : Nat)
        (t : KeyCeremony_Trustee_s SK PK),
      (KeyCeremony_Trustee_new MAX_TRUSTEES malloc num_trustees threshold index).status =
          KEYCEREMONY_TRUSTEE_SUCCESS →
      (KeyCeremony_Trustee_new MAX_TRUSTEES malloc num_trustees threshold index).trustee =
          some t →
      I1 MAX_TRUSTEES t) ∧
    (∀ (c : Crypto SK PK) (z : Serialize SK PK) (t : KeyCeremony_Trustee_s SK PK)
        (out : generate_key_run SK PK),
      KeyCeremony_Trustee_generate_key MAX_TRUSTEES c z t = some out →
      out.t.num_trustees = t.num_trustees ∧ out.t.threshold = t.threshold ∧
      out.t.index = t.index) ∧
    (∀ (c : Crypto SK PK) (z : Serialize SK PK) (t : KeyCeremony_Trustee_s SK PK)
        (in_message : all_keys_received_message) (out : generate_shares_run SK PK),
      KeyCeremony_Trustee_generate_shares MAX_TRUSTEES c z t in_message = some out →
      out.t.num_trustees = t.num_trustees ∧ out.t.threshold = t.threshold ∧
      out.t.index = t.index) ∧
    (∀ (c : Crypto SK PK) (z : Serialize SK PK) (t : KeyCeremony_Trustee_s SK PK)
        (in_message : all_shares_received_message) (out : verify_shares_run SK PK),
      KeyCeremony_Trustee_verify_shares MAX_TRUSTEES c z t in_message = some out →
      out.t.num_trustees = t.num_trustees ∧ out.t.threshold = t.threshold ∧
      out.t.index = t.index) ∧
    (∀ (c : Crypto SK PK) (z : Serialize SK PK) (t : KeyCeremony_Trustee_s SK PK),
      (KeyCeremony_Trustee_export_state c z t).t.num_trustees = t.num_trustees ∧
      (KeyCeremony_Trustee_export_state c z t).t.threshold = t.threshold ∧
      (KeyCeremony_Trustee_export_state c z t).t.index = t.index) ∧
    (∀ t : KeyCeremony_Trustee_s SK PK, Reachable MAX_TRUSTEES t → I1 MAX_TRUSTEES t) := by
  have hnew : ∀ (malloc : Option (KeyCeremony_Trustee_s SK PK))
      (num_trustees threshold index : Nat) (t : KeyCeremony_Trustee_s SK PK),
      (KeyCeremony_Trustee_new MAX_TRUSTEES malloc num_trustees threshold index).status =
          KEYCEREMONY_TRUSTEE_SUCCESS →
      (KeyCeremony_Trustee_new MAX_TRUSTEES malloc num_trustees threshold index).trustee =
          some t →
      I1 MAX_TRUSTEES t := by
    intro malloc n k i t hs ht
    obtain ⟨hv, hn, hk, _⟩ := new_success_trustee MAX_TRUSTEES malloc n k i t hs ht
    unfold I1
    rw [hn, hk]
    exact hv
  refine ⟨hnew, ?_, ?_, ?_, ?_, ?_⟩
  · intro c z t out h
    exact generate_key_frame MAX_TRUSTEES c z t out h
  · intro c z t in_message out h
    obtain ⟨h1, h2, h3, _⟩ := generate_shares_frame MAX_TRUSTEES c z t in_message out h
    exact ⟨h1, h2, h3⟩
  · intro c z t in_message out h
    rw [verify_shares_frame MAX_TRUSTEES c z t in_message out h]
    exact ⟨rfl, rfl, rfl⟩
  · intro c z t
    rw [export_state_frame c z t]
    exact ⟨rfl, rfl, rfl⟩
  · intro t hreach
    induction hreach with
    | new malloc n k i t hs ht => exact hnew malloc n k i t hs ht
    | generate_key c z t out _ hrun ih =>
      obtain ⟨h1, h2, _⟩ := generate_key_frame MAX_TRUSTEES c z t out hrun
      unfold I1 at ih ⊢
      rw [h1, h2]
      exact ih
    | generate_shares c z t in_message out _ hrun ih =>
      obtain ⟨h1, h2, _⟩ := generate_shares_frame MAX_TRUSTEES c z t in_message out hrun
      unfold I1 at ih ⊢
      rw [h1, h2]
      exact ih
    | verify_shares c z t in_message out _ hrun ih =>
      rw [verify_shares_frame MAX_TRUSTEES c z t in_message out hrun]
      exact ih
    | export_state c z t _ ih =>
      rw [export_state_frame c z t]
      exact ih

/-- Witness for C10: trustee 0 of three after construction and key
generation. -/
theorem I1_lifetime_witness :
    ∃ out, KeyCeremony_Trustee_generate_key 5 (nat_crypto 10 20) (word_codec 64)
        { fresh_block with num_trustees := 3, threshold := 2, index := 0 } = some out ∧
      Reachable 5 out.t ∧ I1 5 out.t := by
  have hinit : Reachable 5
      ({ fresh_block with num_trustees := 3, threshold := 2, index := 0 } :
        KeyCeremony_Trustee_s Nat Nat) :=
    Reachable.new (some fresh_block) 3 2 0 _ (by decide) rfl
  cases hrun : KeyCeremony_Trustee_generate_key 5 (nat_crypto 10 20) (word_codec 64)
      { fresh_block with num_trustees := 3, threshold := 2, index := 0 } with
  | none =>
    have hsome : (KeyCeremony_Trustee_generate_key 5 (nat_crypto 10 20) (word_codec 64)
        { fresh_block with num_trustees := 3, threshold := 2, index := 0 }).isSome = true := by
      decide
    rw [hrun] at hsome
    cases hsome
  | some out =>
    have hreach : Reachable 5 out.t := Reachable.generate_key _ _ _ out hinit hrun
    exact ⟨out, rfl, hreach, (I1_lifetime 5).2.2.2.2.2 out.t hreach⟩

end Lifetime

/-! ### Confidentiality of the private key -/

section Confidentiality

variable {SK PK : Type}

/-- The result and the `key_generated` representation of
`KeyCeremony_Trustee_generate_key` do not depend on the private key the
trustee held before the call. -/
theorem generate_key_ignores_private_key (MAX_TRUSTEES : Nat) (c : Crypto SK PK)
    (z : Serialize SK PK) (t : KeyCeremony_Trustee_s SK PK) (sk : SK) :
    (KeyCeremony_Trustee_generate_key MAX_TRUSTEES c z { t with private_key := sk }).map
        (fun out => (out.result, out.message_rep)) =
      (KeyCeremony_Trustee_generate_key MAX_TRUSTEES c z t).map
        (fun out => (out.result, out.message_rep)) := by
  unfold KeyCeremony_Trustee_generate_key
  cases hst : (c.Crypto_gen_keypair t.threshold).status with
  | CRYPTO_OTHER code => simp [hst]
  | CRYPTO_INSUFFICIENT_MEMORY => simp [hst]
  | CRYPTO_SUCCESS =>
    by_cases hidx : t.index < MAX_TRUSTEES
    · simp only [hst, Option.some_bind, if_true, hidx]
    · simp [hst, hidx]

/-- The result and the `shares_verified` representation of
`KeyCeremony_Trustee_verify_shares` do not depend on the trustee's private
key. -/
theorem verify_shares_ignores_private_key (MAX_TRUSTEES : Nat) (c : Crypto SK PK)
    (z : Serialize SK PK) (t : KeyCeremony_Trustee_s SK PK) (sk : SK)
    (in_message : all_shares_received_message) :
    (KeyCeremony_Trustee_verify_shares MAX_TRUSTEES c z { t with private_key := sk }
        in_message).map (fun out => (out.result, out.out_message_rep)) =
      (KeyCeremony_Trustee_verify_shares MAX_TRUSTEES c z t in_message).map
        (fun out => (out.result, out.out_message_rep)) := by
  have hloop : ∀ n status,
      verify_shares_check_loop MAX_TRUSTEES c { t with private_key := sk }
          (z.Serialize_read_all_shares_received (reading_state in_message)).2 n status =
        verify_shares_check_loop MAX_TRUSTEES c t
          (z.Serialize_read_all_shares_received (reading_state in_message)).2 n status := by
    intro n status
    induction n with
    | zero => rfl
    | succ k ih => rw [verify_shares_check_loop, verify_shares_check_loop, ih]
  unfold KeyCeremony_Trustee_verify_shares
  simp only [hloop]
  cases verify_shares_check_loop MAX_TRUSTEES c t
      (z.Serialize_read_all_shares_received (reading_state in_message)).2 t.threshold
      (if (z.Serialize_read_all_shares_received (reading_state in_message)).1.status ≠
          SERIALIZE_STATE_READING then KEYCEREMONY_TRUSTEE_DESERIALIZE_ERROR
        else KEYCEREMONY_TRUSTEE_SUCCESS) with
  | none => rfl
  | some st =>
    simp only [Option.some_bind]
    split
    · split <;> rfl
    · rfl

/-- C1, at a failing input. Two states of trustee 0 that differ only in the
private key (`10` and `77`) are handed the same keys `20, 21, 22`. Both calls
of `KeyCeremony_Trustee_generate_shares` return SUCCESS, and the
representations and the messages differ: every share record carries the
private key of the trustee. -/
theorem generate_shares_message_carries_private_key :
    (KeyCeremony_Trustee_generate_shares 5 (nat_crypto 0 0) (word_codec 64) (sample_trustee 0)
        { len := 4, bytes := [3, 20, 21, 22] }).map (fun out => out.result) =
      some { status := KEYCEREMONY_TRUSTEE_SUCCESS
             message := some { len := 8, bytes := [0, 3, 10, 20, 10, 21, 10, 22] } } ∧
    (KeyCeremony_Trustee_generate_shares 5 (nat_crypto 0 0) (word_codec 64)
        { sample_trustee 0 with private_key := 77 }
        { len := 4, bytes := [3, 20, 21, 22] }).map (fun out => out.result) =
      some { status := KEYCEREMONY_TRUSTEE_SUCCESS
             message := some { len := 8, bytes := [0, 3, 77, 20, 77, 21, 77, 22] } } ∧
    (KeyCeremony_Trustee_generate_shares 5 (nat_crypto 0 0) (word_codec 64) (sample_trustee 0)
        { len := 4, bytes := [3, 20, 21, 22] }).bind
        (fun out => out.out_message_rep.bind fun rep => rep.shares 1) =
      some { private_key := 10, recipient_public_key := 21 } ∧
    (KeyCeremony_Trustee_generate_shares 5 (nat_crypto 0 0) (word_codec 64)
        { sample_trustee 0 with private_key := 77 }
        { len := 4, bytes := [3, 20, 21, 22] }).bind
        (fun out => out.out_message_rep.bind fun rep => rep.shares 1) =
      some { private_key := 77, recipient_public_key := 21 } := by
  refine ⟨?_, ?_, ?_, ?_⟩ <;> decide

end Confidentiality

/-! ### The honest ceremony -/

section Ceremony

variable {SK PK : Type}

/-- C6. The honest ceremony, for every `1 ≤ T ≤ N ≤ MAX_TRUSTEES`. Trustee
`i < N` is constructed with index `i` on the block `malloc i` and has the
crypto collaborator `c i`, whose public-key copy copies and whose equality
holds of equal keys; all share the codec `z`. Each runs `generate_key`
successfully (`k i`); the orchestrator's `keys` message decodes to the public
keys of the `key_generated` representations; each runs `generate_shares` on it
successfully (`s i`); the orchestrator's `matrix` message decodes to the
matrix whose row `r` holds the first `T` share records of trustee `r`'s
`shares_generated` representation; and the codec serializes
`{trustee_index = i, verified = true}`. Then after the second round trustee
`i` holds the public key of every trustee `j < N`, and its `verify_shares` on
the matrix returns SUCCESS with the serialization of
`{trustee_index = i, verified = true}`, leaving its state unchanged. -/
theorem honest_ceremony (MAX_TRUSTEES N T : Nat) (hT : 1 ≤ T) (hTN : T ≤ N)
    (hN : N ≤ MAX_TRUSTEES) (c : Nat → Crypto SK PK) (z : Serialize SK PK)
    (malloc t0 : Nat → KeyCeremony_Trustee_s SK PK) (k : Nat → generate_key_run SK PK)
    (s : Nat → generate_shares_run SK PK) (keys : all_keys_received_message)
    (matrix : all_shares_received_message)
    (hcopy : ∀ i, i < N → ∀ x, (c i).Crypto_public_key_copy x = x)
    (hequal : ∀ i, i < N → ∀ x, (c i).Crypto_public_key_equal x x = true)
    (hnew : ∀ i, i < N →
      (KeyCeremony_Trustee_new MAX_TRUSTEES (some (malloc i)) N T i).trustee = some (t0 i))
    (hk : ∀ i, i < N →
      KeyCeremony_Trustee_generate_key MAX_TRUSTEES (c i) z (t0 i) = some (k i) ∧
      (k i).result.status = KEYCEREMONY_TRUSTEE_SUCCESS)
    (hkeys : ∀ i, i < N → ∃ rep, (k i).message_rep = some rep ∧
      (z.Serialize_read_all_keys_received (reading_state keys)).2.public_keys i =
        rep.public_key)
    (hs : ∀ i, i < N →
      KeyCeremony_Trustee_generate_shares MAX_TRUSTEES (c i) z (k i).t keys = some (s i) ∧
      (s i).result.status = KEYCEREMONY_TRUSTEE_SUCCESS)
    (hmread : (z.Serialize_read_all_shares_received (reading_state matrix)).1.status =
      SERIALIZE_STATE_READING)
    (hmatrix : ∀ r, r < N → ∀ j, j < T → ∃ rep, (s r).out_message_rep = some rep ∧
      rep.shares j =
        some ((z.Serialize_read_all_shares_received (reading_state matrix)).2.shares r j))
    (hser : ∀ i, i < N →
      (serialize_shares_verified z { trustee_index := i, verified := true }).status =
        SERIALIZE_STATE_WRITING) :
    ∀ i, i < N →
      (∀ j, j < N → ∃ rep, (k j).message_rep = some rep ∧
        (s i).t.public_keys j = rep.public_key) ∧
      ∃ out, KeyCeremony_Trustee_verify_shares MAX_TRUSTEES (c i) z (s i).t matrix =
          some out ∧
        out.result.status = KEYCEREMONY_TRUSTEE_SUCCESS ∧
        out.out_message_rep = some { trustee_index := i, verified := true } ∧
        out.result.message =
          some { len := (serialize_shares_verified z
                    { trustee_index := i, verified := true }).len
                 bytes := (serialize_shares_verified z
                    { trustee_index := i, verified := true }).buf } ∧
        out.t = (s i).t := by
  intro i hi
  -- the fields fixed at construction
  have hvalid : 1 ≤ T ∧ T ≤ N ∧ N ≤ MAX_TRUSTEES := ⟨hT, hTN, hN⟩
  have hstatus : (KeyCeremony_Trustee_new MAX_TRUSTEES (some (malloc i)) N T i).status =
      KEYCEREMONY_TRUSTEE_SUCCESS := by
    simp [KeyCeremony_Trustee_new, hvalid]
  obtain ⟨_, hn0, ht0, hi0⟩ := new_success_trustee MAX_TRUSTEES (some (malloc i)) N T i
    (t0 i) hstatus (hnew i hi)
  obtain ⟨hn1, ht1, hi1⟩ := generate_key_frame MAX_TRUSTEES (c i) z (t0 i) (k i) (hk i hi).1
  obtain ⟨hn2, ht2, hi2, _⟩ :=
    generate_shares_frame MAX_TRUSTEES (c i) z (k i).t keys (s i) (hs i hi).1
  have hnum : (k i).t.num_trustees = N := by rw [hn1, hn0]
  have hidx : (s i).t.index = i := by rw [hi2, hi1, hi0]
  have hthr : (s i).t.threshold = T := by rw [ht2, ht1, ht0]
  -- the second round
  obtain ⟨_, _, _, _, hst, hrep, _⟩ :=
    generate_shares_success MAX_TRUSTEES (c i) z (k i).t keys (s i) (hs i hi).1 (hs i hi).2
  have hkeysi : ∀ j, j < N → (s i).t.public_keys j =
      (z.Serialize_read_all_keys_received (reading_state keys)).2.public_keys j := by
    intro j hj
    rw [hst]
    simp [hnum, hj, hcopy i hi]
  have hrow : ∀ j, j < T →
      ((z.Serialize_read_all_shares_received (reading_state matrix)).2.shares i
        j).recipient_public_key = (s i).t.public_keys j := by
    intro j hj
    obtain ⟨rep, hrep', hshare⟩ := hmatrix i hi j hj
    rw [hrep] at hrep'
    cases hrep'
    have hjN : j < (k i).t.num_trustees := by omega
    simp only [hjN, if_true, Option.some.injEq] at hshare
    rw [← hshare]
    exact hcopy i hi _
  refine ⟨?_, ?_⟩
  · intro j hj
    obtain ⟨rep, hrepj, hpub⟩ := hkeys j hj
    exact ⟨rep, hrepj, by rw [hkeysi j hj, hpub]⟩
  · have hall : ∀ j, j < (s i).t.threshold →
        (c i).Crypto_public_key_equal
          ((z.Serialize_read_all_shares_received (reading_state matrix)).2.shares
            (s i).t.index j).recipient_public_key
          ((s i).t.public_keys j) = true := by
      intro j hj
      rw [hidx, hrow j (by omega)]
      exact hequal i hi _
    have hw : (serialize_shares_verified z
        { trustee_index := (s i).t.index, verified := true }).status =
        SERIALIZE_STATE_WRITING := by
      rw [hidx]
      exact hser i hi
    have hrun := verify_shares_match_run MAX_TRUSTEES (c i) z (s i).t matrix (by omega)
      (by omega) hmread hall
    rw [if_neg (not_not.2 hw), hidx] at hrun
    exact ⟨_, hrun, rfl, rfl, rfl, rfl⟩

/-- Witness for C6: three trustees with threshold two. Trustee `i` draws the
keypair `(10 + i, 20 + i)`; the orchestrator hands out the keys `20, 21, 22`
and the matrix whose row `r` is the first two share records of trustee `r`. -/
theorem honest_ceremony_witness :
    ∃ (k : Nat → generate_key_run Nat Nat) (s : Nat → generate_shares_run Nat Nat),
      (∀ i, i < 3 →
        KeyCeremony_Trustee_generate_key 5 (nat_crypto (10 + i) (20 + i)) (word_codec 64)
            { fresh_block with num_trustees := 3, threshold := 2, index := i } =
          some (k i)) ∧
      (∀ i, i < 3 →
        KeyCeremony_Trustee_generate_shares 5 (nat_crypto (10 + i) (20 + i)) (word_codec 64)
            (k i).t { len := 4, bytes := [3, 20, 21, 22] } = some (s i)) ∧
      ∀ i, i < 3 →
        ∃ out, KeyCeremony_Trustee_verify_shares 5 (nat_crypto (10 + i) (20 + i))
            (word_codec 64) (s i).t
            { len := 14, bytes := [3, 2, 10, 20, 10, 21, 11, 20, 11, 21, 12, 20, 12, 21] } =
              some out ∧
          out.result.status = KEYCEREMONY_TRUSTEE_SUCCESS ∧
          out.out_message_rep = some { trustee_index := i, verified := true } := by
  let k : Nat → generate_key_run Nat Nat := fun i =>
    (KeyCeremony_Trustee_generate_key 5 (nat_crypto (10 + i) (20 + i)) (word_codec 64)
      { fresh_block with num_trustees := 3, threshold := 2, index := i }).getD
      { result := { status := KEYCEREMONY_TRUSTEE_INVALID_PARAMS, message := none }
        t := fresh_block, message_rep := none }
  let s : Nat → generate_shares_run Nat Nat := fun i =>
    (KeyCeremony_Trustee_generate_shares 5 (nat_crypto (10 + i) (20 + i)) (word_codec 64)
      (k i).t { len := 4, bytes := [3, 20, 21, 22] }).getD
      { result := { status := KEYCEREMONY_TRUSTEE_INVALID_PARAMS, message := none }
        t := fresh_block, out_message_rep := none }
  have hk : ∀ i, i < 3 →
      KeyCeremony_Trustee_generate_key 5 (nat_crypto (10 + i) (20 + i)) (word_codec 64)
          { fresh_block with num_trustees := 3, threshold := 2, index := i } = some (k i) ∧
      (k i).result.status = KEYCEREMONY_TRUSTEE_SUCCESS := by
    intro i hi
    interval_cases i <;> exact ⟨rfl, rfl⟩
  have hs : ∀ i, i < 3 →
      KeyCeremony_Trustee_generate_shares 5 (nat_crypto (10 + i) (20 + i)) (word_codec 64)
          (k i).t { len := 4, bytes := [3, 20, 21, 22] } = some (s i) ∧
      (s i).result.status = KEYCEREMONY_TRUSTEE_SUCCESS := by
    intro i hi
    interval_cases i <;> exact ⟨rfl, rfl⟩
  have hmain := honest_ceremony 5 3 2 (by decide) (by decide) (by decide)
    (fun i => nat_crypto (10 + i) (20 + i)) (word_codec 64) (fun _ => fresh_block)
    (fun i => { fresh_block with num_trustees := 3, threshold := 2, index := i }) k s
    { len := 4, bytes := [3, 20, 21, 22] }
    { len := 14, bytes := [3, 2, 10, 20, 10, 21, 11, 20, 11, 21, 12, 20, 12, 21] }
    (fun _ _ _ => rfl) (fun _ _ x => decide_eq_true (Eq.refl x))
    (fun i hi => by interval_cases i <;> rfl)
    hk
    (fun i hi => by interval_cases i <;> exact ⟨_, rfl, rfl⟩)
    hs
    (by decide)
    (fun r hr j hj => by
      interval_cases r <;> interval_cases j <;> exact ⟨_, rfl, rfl⟩)
    (fun i hi => by interval_cases i <;> decide)
  refine ⟨k, s, fun i hi => (hk i hi).1, fun i hi => (hs i hi).1, ?_⟩
  intro i hi
  obtain ⟨_, out, hout, hstatus, hrep, _, _⟩ := hmain i hi
  exact ⟨out, hout, hstatus, hrep⟩

end Ceremony

/-! ### Share generation: every run -/

section GenerateSharesRuns

variable {SK PK : Type}

/-- Every run of `KeyCeremony_Trustee_generate_shares` that returns is one of
three: the input failed to deserialize (DESERIALIZE_ERROR, nothing touched);
it deserialized but its key at `t.index` is not the trustee's own
(MISSING_PUBLIC_KEY, nothing touched); or it deserialized and the own key
matched, the slots below `num_trustees` were overwritten with the copies of
the input keys and the representation was built and handed to the codec, whose
final state decides between SUCCESS and SERIALIZE_ERROR. -/
theorem generate_shares_cases (MAX_TRUSTEES : Nat) (c : Crypto SK PK)
    (z : Serialize SK PK) (t : KeyCeremony_Trustee_s SK PK)
    (in_message : all_keys_received_message) (out : generate_shares_run SK PK)
    (h : KeyCeremony_Trustee_generate_shares MAX_TRUSTEES c z t in_message = some out) :
    ((z.Serialize_read_all_keys_received (reading_state in_message)).1.status ≠
        SERIALIZE_STATE_READING ∧
      out = { result := { status := KEYCEREMONY_TRUSTEE_DESERIALIZE_ERROR, message := none }
              t := t, out_message_rep := none }) ∨
    ((z.Serialize_read_all_keys_received (reading_state in_message)).1.status =
        SERIALIZE_STATE_READING ∧ t.index < MAX_TRUSTEES ∧
      c.Crypto_public_key_equal
        ((z.Serialize_read_all_keys_received (reading_state in_message)).2.public_keys
          t.index)
        (t.public_keys t.index) = false ∧
      out = { result := { status := KEYCEREMONY_TRUSTEE_MISSING_PUBLIC_KEY, message := none }
              t := t, out_message_rep := none }) ∨
    ((z.Serialize_read_all_keys_received (reading_state in_message)).1.status =
        SERIALIZE_STATE_READING ∧ t.index < MAX_TRUSTEES ∧
      t.num_trustees ≤ MAX_TRUSTEES ∧
      c.Crypto_public_key_equal
        ((z.Serialize_read_all_keys_received (reading_state in_message)).2.public_keys
          t.index)
        (t.public_keys t.index) = true ∧
      out.t =
        { t with
          public_keys := fun i =>
            if i < t.num_trustees then
              c.Crypto_public_key_copy
                ((z.Serialize_read_all_keys_received
                  (reading_state in_message)).2.public_keys i)
            else t.public_keys i } ∧
      ∃ rep, out.out_message_rep = some rep ∧
        rep =
          { trustee_index := t.index, num_trustees := t.num_trustees
            shares := fun i =>
              if i < t.num_trustees then
                some { private_key := c.Crypto_private_key_copy t.private_key
                       recipient_public_key :=
                         c.Crypto_public_key_copy (out.t.public_keys i) }
              else none } ∧
        (((serialize_shares_generated z rep).status ≠ SERIALIZE_STATE_WRITING ∧
            out.result =
              { status := KEYCEREMONY_TRUSTEE_SERIALIZE_ERROR, message := none }) ∨
          ((serialize_shares_generated z rep).status = SERIALIZE_STATE_WRITING ∧
            out.result =
              { status := KEYCEREMONY_TRUSTEE_SUCCESS
                message := some { len := (serialize_shares_generated z rep).len
                                  bytes := (serialize_shares_generated z rep).buf } }))) := by
  unfold KeyCeremony_Trustee_generate_shares at h
  by_cases hread : (z.Serialize_read_all_keys_received (reading_state in_message)).1.status =
      SERIALIZE_STATE_READING
  swap
  · left
    simp [hread] at h
    exact ⟨hread, h.symm⟩
  right
  by_cases hidx : t.index < MAX_TRUSTEES
  swap
  · simp [hread, hidx] at h
  cases heq : c.Crypto_public_key_equal
      ((z.Serialize_read_all_keys_received (reading_state in_message)).2.public_keys t.index)
      (t.public_keys t.index)
  · left
    simp [hread, hidx, heq] at h
    exact ⟨hread, hidx, rfl, h.symm⟩
  right
  cases hcopy : generate_shares_copy_loop MAX_TRUSTEES c
      (z.Serialize_read_all_keys_received (reading_state in_message)).2 t.num_trustees
      t.public_keys with
  | none => simp [hread, hidx, heq, hcopy] at h
  | some pks =>
    have hn := generate_shares_copy_loop_bound MAX_TRUSTEES c _ _ _ _ hcopy
    simp only [hread, ne_eq, not_true_eq_false, if_false, if_true, hidx, heq,
      Bool.not_true, Option.some_bind, Bool.false_eq_true,
      generate_shares_copy_loop_eq MAX_TRUSTEES c _ _ _ hn,
      generate_shares_build_loop_eq MAX_TRUSTEES c _ _ _ hn] at h
    split at h
    · rename_i hw
      cases h
      exact ⟨hread, hidx, hn, rfl, rfl, _, rfl, rfl, Or.inl ⟨hw, rfl⟩⟩
    · rename_i hw
      cases h
      exact ⟨hread, hidx, hn, rfl, rfl, _, rfl, rfl, Or.inr ⟨not_not.1 hw, rfl⟩⟩

/-- C11. Invariant I2, with `Crypto_public_key_copy` copying and
`Crypto_public_key_equal` holding exactly of equal keys. Every run of
`KeyCeremony_Trustee_generate_shares`, whatever its status, every run of
`KeyCeremony_Trustee_verify_shares` and `KeyCeremony_Trustee_export_state`
leave `t.public_keys[t.index]` equal to its value before the call; when
`generate_shares` returns SUCCESS the input's key at `t.index` is that value,
and the slot, if below `num_trustees`, now holds the input's key. -/
theorem own_public_key_preserved (MAX_TRUSTEES : Nat) (c : Crypto SK PK)
    (z : Serialize SK PK) (t : KeyCeremony_Trustee_s SK PK)
    (hcopy : ∀ x, c.Crypto_public_key_copy x = x)
    (hequal : ∀ x y, c.Crypto_public_key_equal x y = true ↔ x = y) :
    (∀ (in_message : all_keys_received_message) (out : generate_shares_run SK PK),
      KeyCeremony_Trustee_generate_shares MAX_TRUSTEES c z t in_message = some out →
      out.t.public_keys t.index = t.public_keys t.index ∧
      (out.result.status = KEYCEREMONY_TRUSTEE_SUCCESS →
        (z.Serialize_read_all_keys_received (reading_state in_message)).2.public_keys
            t.index = t.public_keys t.index ∧
        (t.index < t.num_trustees →
          out.t.public_keys t.index =
            (z.Serialize_read_all_keys_received (reading_state in_message)).2.public_keys
              t.index))) ∧
    (∀ (in_message : all_shares_received_message) (out : verify_shares_run SK PK),
      KeyCeremony_Trustee_verify_shares MAX_TRUSTEES c z t in_message = some out →
      out.t.public_keys t.index = t.public_keys t.index) ∧
    (KeyCeremony_Trustee_export_state c z t).t.public_keys t.index =
      t.public_keys t.index := by
  refine ⟨?_, ?_, ?_⟩
  · intro in_message out h
    rcases generate_shares_cases MAX_TRUSTEES c z t in_message out h with
      ⟨_, hout⟩ | ⟨_, _, _, hout⟩ | ⟨_, _, _, heq, ht, _⟩
    · subst hout
      exact ⟨rfl, fun hs => by cases hs⟩
    · subst hout
      exact ⟨rfl, fun hs => by cases hs⟩
    · have hsame := (hequal _ _).1 heq
      have hslot : ∀ i, i < t.num_trustees → out.t.public_keys i =
          (z.Serialize_read_all_keys_received (reading_state in_message)).2.public_keys
            i := by
        intro i hi
        rw [ht]
        simp [hi, hcopy]
      refine ⟨?_, fun _ => ⟨hsame, hslot t.index⟩⟩
      by_cases hlt : t.index < t.num_trustees
      · rw [hslot t.index hlt, hsame]
      · rw [ht]
        simp [hlt]
  · intro in_message out h
    rw [verify_shares_frame MAX_TRUSTEES c z t in_message out h]
  · rw [export_state_frame c z t]

/-- Witness for C11: trustee 0 is handed the three keys `20, 21, 22`, its own
being `20`. -/
theorem own_public_key_preserved_witness :
    ∃ out, KeyCeremony_Trustee_generate_shares 5 (nat_crypto 0 0) (word_codec 64)
        (sample_trustee 0) { len := 4, bytes := [3, 20, 21, 22] } = some out ∧
      out.t.public_keys 0 = 20 := by
  have hsome : (KeyCeremony_Trustee_generate_shares 5 (nat_crypto 0 0) (word_codec 64)
      (sample_trustee 0) { len := 4, bytes := [3, 20, 21, 22] }).isSome = true := by
    decide
  cases hrun : KeyCeremony_Trustee_generate_shares 5 (nat_crypto 0 0) (word_codec 64)
      (sample_trustee 0) { len := 4, bytes := [3, 20, 21, 22] } with
  | none =>
    rw [hrun] at hsome
    cases hsome
  | some out =>
    exact ⟨out, rfl,
      ((own_public_key_preserved 5 (nat_crypto 0 0) (word_codec 64) (sample_trustee 0)
        (fun _ => rfl) (fun _ _ => decide_eq_true_iff)).1 _ out hrun).1⟩

/-- C12. Invariant I3. Every run of `KeyCeremony_Trustee_generate_shares`,
every run of `KeyCeremony_Trustee_verify_shares` and
`KeyCeremony_Trustee_export_state` leave `t.private_key` unchanged, whatever
status they return, and the constructor leaves the block's private key as it
was; `generate_key` writes it, when it returns SUCCESS, with the copy of the
key the collaborator generated, and leaves it unchanged otherwise. -/
theorem private_key_read_only (MAX_TRUSTEES : Nat) (c : Crypto SK PK)
    (z : Serialize SK PK) (t : KeyCeremony_Trustee_s SK PK) :
    (∀ (in_message : all_keys_received_message) (out : generate_shares_run SK PK),
      KeyCeremony_Trustee_generate_shares MAX_TRUSTEES c z t in_message = some out →
      out.t.private_key = t.private_key) ∧
    (∀ (in_message : all_shares_received_message) (out : verify_shares_run SK PK),
      KeyCeremony_Trustee_verify_shares MAX_TRUSTEES c z t in_message = some out →
      out.t.private_key = t.private_key) ∧
    (KeyCeremony_Trustee_export_state c z t).t.private_key = t.private_key ∧
    (∀ (num_trustees threshold index : Nat) (t' : KeyCeremony_Trustee_s SK PK),
      (KeyCeremony_Trustee_new MAX_TRUSTEES (some t) num_trustees threshold index).trustee =
        some t' → t'.private_key = t.private_key) ∧
    (∀ out : generate_key_run SK PK,
      KeyCeremony_Trustee_generate_key MAX_TRUSTEES c z t = some out →
      (out.result.status = KEYCEREMONY_TRUSTEE_SUCCESS →
        out.t.private_key =
          c.Crypto_private_key_copy (c.Crypto_gen_keypair t.threshold).private_key) ∧
      (out.result.status = KEYCEREMONY_TRUSTEE_INSUFFICIENT_MEMORY →
        out.t.private_key = t.private_key)) := by
  refine ⟨?_, ?_, ?_, ?_, ?_⟩
  · intro in_message out h
    exact (generate_shares_frame MAX_TRUSTEES c z t in_message out h).2.2.2
  · intro in_message out h
    rw [verify_shares_frame MAX_TRUSTEES c z t in_message out h]
  · rw [export_state_frame c z t]
  · intro n k i t' h
    by_cases hv : 1 ≤ k ∧ k ≤ n ∧ n ≤ MAX_TRUSTEES
    · simp [KeyCeremony_Trustee_new, hv] at h
      subst h
      rfl
    · simp [KeyCeremony_Trustee_new, hv] at h
  · intro out h
    constructor
    · intro hs
      obtain ⟨_, _, ht, _⟩ := generate_key_success MAX_TRUSTEES c z t out h hs
      rw [ht]
    · intro hs
      unfold KeyCeremony_Trustee_generate_key at h
      obtain ⟨st, _, h2⟩ := Option.bind_eq_some.1 h
      dsimp only at h2
      split at h2
      · rename_i hst
        split at h2
        · split at h2
          · cases h2
            cases hs
          · cases h2
            rw [hst] at hs
            cases hs
        · cases h2
      · cases h2
        rfl

/-- Witness for C12: trustee 0, holding the private key `10`, is handed the
three keys `20, 21, 22`. -/
theorem private_key_read_only_witness :
    ∃ out, KeyCeremony_Trustee_generate_shares 5 (nat_crypto 0 0) (word_codec 64)
        (sample_trustee 0) { len := 4, bytes := [3, 20, 21, 22] } = some out ∧
      out.t.private_key = 10 := by
  have hsome : (KeyCeremony_Trustee_generate_shares 5 (nat_crypto 0 0) (word_codec 64)
      (sample_trustee 0) { len := 4, bytes := [3, 20, 21, 22] }).isSome = true := by
    decide
  cases hrun : KeyCeremony_Trustee_generate_shares 5 (nat_crypto 0 0) (word_codec 64)
      (sample_trustee 0) { len := 4, bytes := [3, 20, 21, 22] } with
  | none =>
    rw [hrun] at hsome
    cases hsome
  | some out =>
    exact ⟨out, rfl,
      (private_key_read_only 5 (nat_crypto 0 0) (word_codec 64) (sample_trustee 0)).1 _ out
        hrun⟩

/-- C13. Invariant I4 and the atomicity of
`KeyCeremony_Trustee_generate_shares` on rejected input. If the input fails to
deserialize the operation returns DESERIALIZE_ERROR; whenever it returns
DESERIALIZE_ERROR or MISSING_PUBLIC_KEY the whole trustee state is unchanged;
and on every run the slots of `public_keys` are either all as before, or the
input deserialized, its key at `t.index` matched the trustee's own, and
exactly the slots `i < t.num_trustees` were written, each with the copy of the
`i`-th key of the input. -/
theorem generate_shares_rejected_input (MAX_TRUSTEES : Nat) (c : Crypto SK PK)
    (z : Serialize SK PK) (t : KeyCeremony_Trustee_s SK PK)
    (in_message : all_keys_received_message) :
    ((z.Serialize_read_all_keys_received (reading_state in_message)).1.status ≠
        SERIALIZE_STATE_READING →
      KeyCeremony_Trustee_generate_shares MAX_TRUSTEES c z t in_message =
        some { result := { status := KEYCEREMONY_TRUSTEE_DESERIALIZE_ERROR, message := none }
               t := t, out_message_rep := none }) ∧
    (∀ out : generate_shares_run SK PK,
      KeyCeremony_Trustee_generate_shares MAX_TRUSTEES c z t in_message = some out →
      (out.result.status = KEYCEREMONY_TRUSTEE_DESERIALIZE_ERROR ∨
          out.result.status = KEYCEREMONY_TRUSTEE_MISSING_PUBLIC_KEY → out.t = t) ∧
      (out.t.public_keys = t.public_keys ∨
        ((z.Serialize_read_all_keys_received (reading_state in_message)).1.status =
            SERIALIZE_STATE_READING ∧
          c.Crypto_public_key_equal
            ((z.Serialize_read_all_keys_received (reading_state in_message)).2.public_keys
              t.index)
            (t.public_keys t.index) = true ∧
          ∀ i, (i < t.num_trustees →
              out.t.public_keys i =
                c.Crypto_public_key_copy
                  ((z.Serialize_read_all_keys_received
                    (reading_state in_message)).2.public_keys i)) ∧
            (t.num_trustees ≤ i → out.t.public_keys i = t.public_keys i)))) := by
  constructor
  · intro hread
    simp [KeyCeremony_Trustee_generate_shares, hread]
  · intro out h
    rcases generate_shares_cases MAX_TRUSTEES c z t in_message out h with
      ⟨_, hout⟩ | ⟨_, _, _, hout⟩ | ⟨hread, _, _, heq, ht, rep, _, _, hres⟩
    · subst hout
      exact ⟨fun _ => rfl, Or.inl rfl⟩
    · subst hout
      exact ⟨fun _ => rfl, Or.inl rfl⟩
    · constructor
      · intro hst
        rcases hres with ⟨_, hr⟩ | ⟨_, hr⟩ <;> rw [hr] at hst <;>
          rcases hst with hst | hst <;> cases hst
      · right
        refine ⟨hread, heq, fun i => ⟨fun hi => ?_, fun hi => ?_⟩⟩
        · rw [ht]
          simp [hi]
        · have hni : ¬ i < t.num_trustees := by omega
          rw [ht]
          simp [hni]

/-- Witness for C13: trustee 0 is handed a keys message cut off after the
first key. -/
theorem generate_shares_rejected_input_witness :
    KeyCeremony_Trustee_generate_shares 5 (nat_crypto 0 0) (word_codec 64) (sample_trustee 0)
        { len := 2, bytes := [3, 20] } =
      some { result := { status := KEYCEREMONY_TRUSTEE_DESERIALIZE_ERROR, message := none }
             t := sample_trustee 0, out_message_rep := none } :=
  (generate_shares_rejected_input 5 (nat_crypto 0 0) (word_codec 64) (sample_trustee 0)
    { len := 2, bytes := [3, 20] }).1 (by decide)

end GenerateSharesRuns

/-! ### The trustee's index -/

section Index

/-- C14, at a failing input. With `MAX_TRUSTEES = 5`,
`KeyCeremony_Trustee_new(num_trustees = 1, threshold = 1, index = 5)` returns
SUCCESS with a trustee whose index is `5`, not below `num_trustees = 1`: the
index is not validated. It is not one of the five slots either, and
`generate_key` on that trustee writes `public_keys[5]` out of bounds. -/
theorem new_accepts_index_out_of_range :
    (KeyCeremony_Trustee_new 5 (some fresh_block) 1 1 5).status =
      KEYCEREMONY_TRUSTEE_SUCCESS ∧
    (KeyCeremony_Trustee_new 5 (some fresh_block) 1 1 5).trustee.map
      (fun t => (t.num_trustees, t.threshold, t.index)) = some (1, 1, 5) ∧
    ((KeyCeremony_Trustee_new 5 (some fresh_block) 1 1 5).trustee.bind fun t =>
      KeyCeremony_Trustee_generate_key 5 (nat_crypto 10 20) (word_codec 64) t).isNone =
        true := by
  refine ⟨?_, ?_, ?_⟩ <;> decide

end Index

/-! ### State export -/

section ExportState

variable {SK PK : Type}

/-- C15. `KeyCeremony_Trustee_export_state` hands the codec exactly
`{index = t.index, private_key = t.private_key}` (the private-key copy
copying); it returns SUCCESS with the serialized bytes when the codec ends in
the WRITING state and SERIALIZE_ERROR with no bytes otherwise; in both cases
the trustee state is unchanged. -/
theorem export_state_serializes_state (c : Crypto SK PK) (z : Serialize SK PK)
    (t : KeyCeremony_Trustee_s SK PK) (hsk : ∀ k, c.Crypto_private_key_copy k = k) :
    (KeyCeremony_Trustee_export_state c z t).rep =
      { index := t.index, private_key := t.private_key } ∧
    ((serialize_trustee_state z (KeyCeremony_Trustee_export_state c z t).rep).status =
        SERIALIZE_STATE_WRITING →
      (KeyCeremony_Trustee_export_state c z t).result =
        { status := KEYCEREMONY_TRUSTEE_SUCCESS
          state := some
            { len := (serialize_trustee_state z
                (KeyCeremony_Trustee_export_state c z t).rep).len
              bytes := (serialize_trustee_state z
                (KeyCeremony_Trustee_export_state c z t).rep).buf } }) ∧
    ((serialize_trustee_state z (KeyCeremony_Trustee_export_state c z t).rep).status ≠
        SERIALIZE_STATE_WRITING →
      (KeyCeremony_Trustee_export_state c z t).result =
        { status := KEYCEREMONY_TRUSTEE_SERIALIZE_ERROR, state := none }) ∧
    (KeyCeremony_Trustee_export_state c z t).t = t := by
  have hrep : (KeyCeremony_Trustee_export_state c z t).rep =
      { index := t.index, private_key := t.private_key } := by
    unfold KeyCeremony_Trustee_export_state
    dsimp only
    split <;> simp [hsk]
  refine ⟨hrep, ?_, ?_, export_state_frame c z t⟩
  · intro hw
    rw [hrep] at hw ⊢
    unfold KeyCeremony_Trustee_export_state
    simp [hsk, hw]
  · intro hw
    rw [hrep] at hw
    unfold KeyCeremony_Trustee_export_state
    simp [hsk, hw]

/-- Witness for C15: trustee 0, holding the private key `10`, exports its
state. -/
theorem export_state_serializes_state_witness :
    (KeyCeremony_Trustee_export_state (nat_crypto 0 0) (word_codec 64)
        (sample_trustee 0)).result =
      { status := KEYCEREMONY_TRUSTEE_SUCCESS, state := some { len := 2, bytes := [0, 10] } } :=
  (export_state_serializes_state (nat_crypto 0 0) (word_codec 64) (sample_trustee 0)
    (fun _ => rfl)).2.1 (by decide)

end ExportState

/-! ### Results: message or error -/

section Results

variable {SK PK : Type}

/-- Every run of `KeyCeremony_Trustee_generate_key` that returns either built
no representation and reports INSUFFICIENT_MEMORY with no message, or built
one, and the final codec state decides between SUCCESS with the message and
SERIALIZE_ERROR with none. -/
theorem generate_key_cases (MAX_TRUSTEES : Nat) (c : Crypto SK PK) (z : Serialize SK PK)
    (t : KeyCeremony_Trustee_s SK PK) (out : generate_key_run SK PK)
    (h : KeyCeremony_Trustee_generate_key MAX_TRUSTEES c z t = some out) :
    ((c.Crypto_gen_keypair t.threshold).status = CRYPTO_INSUFFICIENT_MEMORY ∧
      out = { result := { status := KEYCEREMONY_TRUSTEE_INSUFFICIENT_MEMORY, message := none }
              t := t, message_rep := none }) ∨
    ((c.Crypto_gen_keypair t.threshold).status = CRYPTO_SUCCESS ∧ t.index < MAX_TRUSTEES ∧
      ∃ rep, out.message_rep = some rep ∧
        (((serialize_key_generated z rep).status ≠ SERIALIZE_STATE_WRITING ∧
            out.result =
              { status := KEYCEREMONY_TRUSTEE_SERIALIZE_ERROR, message := none }) ∨
          ((serialize_key_generated z rep).status = SERIALIZE_STATE_WRITING ∧
            out.result =
              { status := KEYCEREMONY_TRUSTEE_SUCCESS
                message := some { len := (serialize_key_generated z rep).len
                                  bytes := (serialize_key_generated z rep).buf } }))) := by
  unfold KeyCeremony_Trustee_generate_key at h
  cases hst : (c.Crypto_gen_keypair t.threshold).status with
  | CRYPTO_OTHER code => simp [hst] at h
  | CRYPTO_INSUFFICIENT_MEMORY =>
    left
    simp [hst] at h
    exact ⟨rfl, h.symm⟩
  | CRYPTO_SUCCESS =>
    right
    by_cases hidx : t.index < MAX_TRUSTEES
    swap
    · simp [hst, hidx] at h
    simp only [hst, Option.some_bind, if_true, hidx] at h
    split at h
    · rename_i hw
      cases h
      exact ⟨rfl, hidx, _, rfl, Or.inl ⟨hw, rfl⟩⟩
    · rename_i hw
      cases h
      exact ⟨rfl, hidx, _, rfl, Or.inr ⟨not_not.1 hw, rfl⟩⟩

/-- Every run of `KeyCeremony_Trustee_verify_shares` that returns either built
no representation and reports an error with no message, or built one, and the
final codec state decides between SUCCESS with the message and SERIALIZE_ERROR
with none. -/
theorem verify_shares_cases (MAX_TRUSTEES : Nat) (c : Crypto SK PK) (z : Serialize SK PK)
    (t : KeyCeremony_Trustee_s SK PK) (in_message : all_shares_received_message)
    (out : verify_shares_run SK PK)
    (h : KeyCeremony_Trustee_verify_shares MAX_TRUSTEES c z t in_message = some out) :
    (out.result.status ≠ KEYCEREMONY_TRUSTEE_SUCCESS ∧
      out.result.status ≠ KEYCEREMONY_TRUSTEE_SERIALIZE_ERROR ∧
      out.result.message = none ∧ out.out_message_rep = none) ∨
    (∃ rep, out.out_message_rep = some rep ∧
      (((serialize_shares_verified z rep).status ≠ SERIALIZE_STATE_WRITING ∧
          out.result =
            { status := KEYCEREMONY_TRUSTEE_SERIALIZE_ERROR, message := none }) ∨
        ((serialize_shares_verified z rep).status = SERIALIZE_STATE_WRITING ∧
          out.result =
            { status := KEYCEREMONY_TRUSTEE_SUCCESS
              message := some { len := (serialize_shares_verified z rep).len
                                bytes := (serialize_shares_verified z rep).buf } }))) := by
  unfold KeyCeremony_Trustee_verify_shares at h
  obtain ⟨st, hloop, h2⟩ := Option.bind_eq_some.1 h
  dsimp only at h2
  by_cases hst : st = KEYCEREMONY_TRUSTEE_SUCCESS
  · right
    subst hst
    simp only [if_true] at h2
    split at h2
    · rename_i hw
      cases h2
      exact ⟨_, rfl, Or.inl ⟨hw, rfl⟩⟩
    · rename_i hw
      cases h2
      exact ⟨_, rfl, Or.inr ⟨not_not.1 hw, rfl⟩⟩
  · left
    simp only [hst, if_false] at h2
    cases h2
    refine ⟨hst, ?_, rfl, rfl⟩
    -- the loop yields the status it was given or INVALID_KEY_SHARE
    have hval : ∀ n s r,
        verify_shares_check_loop MAX_TRUSTEES c t
          (z.Serialize_read_all_shares_received (reading_state in_message)).2 n s = some r →
        r = s ∨ r = KEYCEREMONY_TRUSTEE_INVALID_KEY_SHARE := by
      intro n
      induction n with
      | zero =>
        intro s r hr
        simp [verify_shares_check_loop] at hr
        exact Or.inl hr.symm
      | succ k ih =>
        intro s r hr
        rw [verify_shares_check_loop] at hr
        obtain ⟨r', h1, h3⟩ := Option.bind_eq_some.1 hr
        split at h3
        · dsimp only at h3
          split at h3
          · cases h3
            exact Or.inr rfl
          · cases h3
            exact ih s r h1
        · cases h3
    intro hse
    rcases hval _ _ _ hloop with hr | hr
    · rw [hr] at hse
      split at hse <;> cases hse
    · rw [hr] at hse
      cases hse

/-- C16. No partial success. Every run of `generate_key`, `generate_shares`
and `verify_shares` that returns, and every run of `export_state`, carries an
output message exactly when its status is SUCCESS; and whenever the
representation was handed to the codec and the codec does not end in the
WRITING state, the operation returns SERIALIZE_ERROR and sets no message. -/
theorem no_partial_success (MAX_TRUSTEES : Nat) (c : Crypto SK PK) (z : Serialize SK PK)
    (t : KeyCeremony_Trustee_s SK PK) :
    (∀ out : generate_key_run SK PK,
      KeyCeremony_Trustee_generate_key MAX_TRUSTEES c z t = some out →
      (out.result.message.isSome = true ↔
        out.result.status = KEYCEREMONY_TRUSTEE_SUCCESS) ∧
      ∀ rep, out.message_rep = some rep →
        (serialize_key_generated z rep).status ≠ SERIALIZE_STATE_WRITING →
        out.result = { status := KEYCEREMONY_TRUSTEE_SERIALIZE_ERROR, message := none }) ∧
    (∀ (in_message : all_keys_received_message) (out : generate_shares_run SK PK),
      KeyCeremony_Trustee_generate_shares MAX_TRUSTEES c z t in_message = some out →
      (out.result.message.isSome = true ↔
        out.result.status = KEYCEREMONY_TRUSTEE_SUCCESS) ∧
      ∀ rep, out.out_message_rep = some rep →
        (serialize_shares_generated z rep).status ≠ SERIALIZE_STATE_WRITING →
        out.result = { status := KEYCEREMONY_TRUSTEE_SERIALIZE_ERROR, message := none }) ∧
    (∀ (in_message : all_shares_received_message) (out : verify_shares_run SK PK),
      KeyCeremony_Trustee_verify_shares MAX_TRUSTEES c z t in_message = some out →
      (out.result.message.isSome = true ↔
        out.result.status = KEYCEREMONY_TRUSTEE_SUCCESS) ∧
      ∀ rep, out.out_message_rep = some rep →
        (serialize_shares_verified z rep).status ≠ SERIALIZE_STATE_WRITING →
        out.result = { status := KEYCEREMONY_TRUSTEE_SERIALIZE_ERROR, message := none }) ∧
    (((KeyCeremony_Trustee_export_state c z t).result.state.isSome = true ↔
        (KeyCeremony_Trustee_export_state c z t).result.status =
          KEYCEREMONY_TRUSTEE_SUCCESS) ∧
      ((serialize_trustee_state z (KeyCeremony_Trustee_export_state c z t).rep).status ≠
          SERIALIZE_STATE_WRITING →
        (KeyCeremony_Trustee_export_state c z t).result =
          { status := KEYCEREMONY_TRUSTEE_SERIALIZE_ERROR, state := none })) := by
  refine ⟨?_, ?_, ?_, ?_⟩
  · intro out h
    rcases generate_key_cases MAX_TRUSTEES c z t out h with
      ⟨_, hout⟩ | ⟨_, _, rep, hrep, ⟨hw, hr⟩ | ⟨hw, hr⟩⟩
    · subst hout
      exact ⟨by simp, fun rep hrep => by cases hrep⟩
    · refine ⟨by rw [hr]; simp, fun rep' hrep' _ => hr⟩
    · refine ⟨by rw [hr]; simp, fun rep' hrep' hw' => ?_⟩
      rw [hrep] at hrep'
      cases hrep'
      exact absurd hw hw'
  · intro in_message out h
    rcases generate_shares_cases MAX_TRUSTEES c z t in_message out h with
      ⟨_, hout⟩ | ⟨_, _, _, hout⟩ | ⟨_, _, _, _, _, rep, hrep, _, ⟨hw, hr⟩ | ⟨hw, hr⟩⟩
    · subst hout
      exact ⟨by simp, fun rep hrep => by cases hrep⟩
    · subst hout
      exact ⟨by simp, fun rep hrep => by cases hrep⟩
    · refine ⟨by rw [hr]; simp, fun rep' hrep' _ => hr⟩
    · refine ⟨by rw [hr]; simp, fun rep' hrep' hw' => ?_⟩
      rw [hrep] at hrep'
      cases hrep'
      exact absurd hw hw'
  · intro in_message out h
    rcases verify_shares_cases MAX_TRUSTEES c z t in_message out h with
      ⟨hns, _, hmsg, hnone⟩ | ⟨rep, hrep, ⟨hw, hr⟩ | ⟨hw, hr⟩⟩
    · refine ⟨by rw [hmsg]; simp [hns], fun rep hrep => ?_⟩
      rw [hnone] at hrep
      cases hrep
    · refine ⟨by rw [hr]; simp, fun rep' hrep' _ => hr⟩
    · refine ⟨by rw [hr]; simp, fun rep' hrep' hw' => ?_⟩
      rw [hrep] at hrep'
      cases hrep'
      exact absurd hw hw'
  · unfold KeyCeremony_Trustee_export_state
    dsimp only
    split
    · rename_i hw
      exact ⟨by simp, fun _ => rfl⟩
    · rename_i hw
      exact ⟨by simp, fun hw' => absurd hw' hw⟩

/-- Witness for C16: the codec can allocate a single entry only, so exporting
the state of trustee 0 fails in the codec. -/
theorem no_partial_success_witness :
    (KeyCeremony_Trustee_export_state (nat_crypto 0 0) (word_codec 1)
        (sample_trustee 0)).result =
      { status := KEYCEREMONY_TRUSTEE_SERIALIZE_ERROR, state := none } :=
  (no_partial_success 5 (nat_crypto 0 0) (word_codec 1) (sample_trustee 0)).2.2.2.2
    (by decide)

end Results

/-! ### Behaviour of the reference -/

section Behaviour

variable {SK PK : Type}

/-- C17. Every share record carries the full private key. Whenever
`KeyCeremony_Trustee_generate_shares` returns SUCCESS (the private-key copy
copying), for every recipient `i < t.num_trustees` the share record `i` of the
`shares_generated` representation has `private_key` equal to `t.private_key`,
the same value for all recipients. -/
theorem generate_shares_full_private_key (MAX_TRUSTEES : Nat) (c : Crypto SK PK)
    (z : Serialize SK PK) (t : KeyCeremony_Trustee_s SK PK)
    (in_message : all_keys_received_message) (out : generate_shares_run SK PK)
    (hsk : ∀ k, c.Crypto_private_key_copy k = k)
    (h : KeyCeremony_Trustee_generate_shares MAX_TRUSTEES c z t in_message = some out)
    (hs : out.result.status = KEYCEREMONY_TRUSTEE_SUCCESS) :
    ∃ rep, out.out_message_rep = some rep ∧
      ∀ i, i < t.num_trustees →
        ∃ share, rep.shares i = some share ∧ share.private_key = t.private_key ∧
          share.private_key = out.t.private_key := by
  obtain ⟨_, _, _, _, ht, hrep, _⟩ :=
    generate_shares_success MAX_TRUSTEES c z t in_message out h hs
  refine ⟨_, hrep, fun i hi => ⟨_, if_pos hi, hsk _, ?_⟩⟩
  rw [ht]
  exact hsk _

/-- Witness for C17: trustee 0, holding the private key `10`, is handed the
three keys `20, 21, 22`. -/
theorem generate_shares_full_private_key_witness :
    ∃ out, KeyCeremony_Trustee_generate_shares 5 (nat_crypto 0 0) (word_codec 64)
        (sample_trustee 0) { len := 4, bytes := [3, 20, 21, 22] } = some out ∧
      ∃ rep, out.out_message_rep = some rep ∧
        ∀ i, i < 3 → ∃ share, rep.shares i = some share ∧ share.private_key = 10 := by
  have hres : (KeyCeremony_Trustee_generate_shares 5 (nat_crypto 0 0) (word_codec 64)
      (sample_trustee 0) { len := 4, bytes := [3, 20, 21, 22] }).map
        (fun o => o.result.status) = some KEYCEREMONY_TRUSTEE_SUCCESS := by
    decide
  cases hrun : KeyCeremony_Trustee_generate_shares 5 (nat_crypto 0 0) (word_codec 64)
      (sample_trustee 0) { len := 4, bytes := [3, 20, 21, 22] } with
  | none =>
    rw [hrun] at hres
    cases hres
  | some out =>
    rw [hrun] at hres
    have hs : out.result.status = KEYCEREMONY_TRUSTEE_SUCCESS := by simpa using hres
    obtain ⟨rep, hrep, hall⟩ := generate_shares_full_private_key 5 (nat_crypto 0 0)
      (word_codec 64) (sample_trustee 0) { len := 4, bytes := [3, 20, 21, 22] } out
      (fun _ => rfl) hrun hs
    refine ⟨out, rfl, rep, hrep, fun i hi => ?_⟩
    obtain ⟨share, h1, h2, _⟩ := hall i hi
    exact ⟨share, h1, h2⟩

/-- C18. When `Crypto_gen_keypair` returns CRYPTO_INSUFFICIENT_MEMORY,
`KeyCeremony_Trustee_generate_key` returns INSUFFICIENT_MEMORY, produces no
message and builds no representation, and leaves the whole trustee state, so
`private_key` and every slot of `public_keys`, unchanged. -/
theorem generate_key_insufficient_memory (MAX_TRUSTEES : Nat) (c : Crypto SK PK)
    (z : Serialize SK PK) (t : KeyCeremony_Trustee_s SK PK)
    (hst : (c.Crypto_gen_keypair t.threshold).status = CRYPTO_INSUFFICIENT_MEMORY) :
    KeyCeremony_Trustee_generate_key MAX_TRUSTEES c z t =
      some { result := { status := KEYCEREMONY_TRUSTEE_INSUFFICIENT_MEMORY, message := none }
             t := t, message_rep := none } := by
  simp [KeyCeremony_Trustee_generate_key, hst]

/-- Witness for C18: the collaborator of trustee 0 runs out of memory. -/
theorem generate_key_insufficient_memory_witness :
    KeyCeremony_Trustee_generate_key 5 exhausted_crypto (word_codec 64) (sample_trustee 0) =
      some { result := { status := KEYCEREMONY_TRUSTEE_INSUFFICIENT_MEMORY, message := none }
             t := sample_trustee 0, message_rep := none } :=
  generate_key_insufficient_memory 5 exhausted_crypto (word_codec 64) (sample_trustee 0)
    (by decide)

/-- The checking loop of `verify_shares` reads only the recipient keys of the
first `n` entries of row `t.index` and the first `n` public keys. -/
theorem verify_shares_check_loop_congr (MAX_TRUSTEES : Nat) (c : Crypto SK PK)
    (t1 t2 : KeyCeremony_Trustee_s SK PK) (rep1 rep2 : all_shares_received_rep SK PK)
    (n : Nat) (status : KeyCeremony_Trustee_status) (hidx : t1.index = t2.index)
    (hpk : ∀ i, i < n → t1.public_keys i = t2.public_keys i)
    (hrow : ∀ i, i < n →
      (rep1.shares t1.index i).recipient_public_key =
        (rep2.shares t2.index i).recipient_public_key) :
    verify_shares_check_loop MAX_TRUSTEES c t1 rep1 n status =
      verify_shares_check_loop MAX_TRUSTEES c t2 rep2 n status := by
  induction n with
  | zero => rfl
  | succ k ih =>
    rw [verify_shares_check_loop, verify_shares_check_loop,
      ih (fun i hi => hpk i (by omega)) (fun i hi => hrow i (by omega))]
    have hk := hrow k (by omega)
    rw [hidx] at hk
    simp only [hidx, hk, hpk k (by omega)]

/-- C19. The result of `KeyCeremony_Trustee_verify_shares` depends only on
`t.index`, `t.threshold`, the public keys `t.public_keys[0..threshold)` and the
`recipient_public_key` fields of the first `t.threshold` entries of row
`t.index` of the input. Two trustees that agree on the former, run on two
successfully deserialized inputs that agree on the latter (and may differ in
every other row, every column from `threshold` on and every share's key
material), get the same status, the same message and the same representation. -/
theorem verify_shares_reads_own_row (MAX_TRUSTEES : Nat) (c : Crypto SK PK)
    (z : Serialize SK PK) (t1 t2 : KeyCeremony_Trustee_s SK PK)
    (m1 m2 : all_shares_received_message) (hidx : t1.index = t2.index)
    (hthr : t1.threshold = t2.threshold)
    (hpk : ∀ i, i < t1.threshold → t1.public_keys i = t2.public_keys i)
    (hread1 : (z.Serialize_read_all_shares_received (reading_state m1)).1.status =
      SERIALIZE_STATE_READING)
    (hread2 : (z.Serialize_read_all_shares_received (reading_state m2)).1.status =
      SERIALIZE_STATE_READING)
    (hrow : ∀ i, i < t1.threshold →
      ((z.Serialize_read_all_shares_received (reading_state m1)).2.shares
          t1.index i).recipient_public_key =
        ((z.Serialize_read_all_shares_received (reading_state m2)).2.shares
          t2.index i).recipient_public_key) :
    (KeyCeremony_Trustee_verify_shares MAX_TRUSTEES c z t1 m1).map
        (fun out => (out.result, out.out_message_rep)) =
      (KeyCeremony_Trustee_verify_shares MAX_TRUSTEES c z t2 m2).map
        (fun out => (out.result, out.out_message_rep)) := by
  have hloop := verify_shares_check_loop_congr MAX_TRUSTEES c t1 t2
    (z.Serialize_read_all_shares_received (reading_state m1)).2
    (z.Serialize_read_all_shares_received (reading_state m2)).2 t1.threshold
    KEYCEREMONY_TRUSTEE_SUCCESS hidx hpk hrow
  unfold KeyCeremony_Trustee_verify_shares
  simp only [hread1, hread2, ne_eq, not_true_eq_false, if_false, hloop, ← hthr, ← hidx]
  cases verify_shares_check_loop MAX_TRUSTEES c t2
      (z.Serialize_read_all_shares_received (reading_state m2)).2 t1.threshold
      KEYCEREMONY_TRUSTEE_SUCCESS with
  | none => rfl
  | some st =>
    simp only [Option.some_bind]
    split
    · split <;> rfl
    · rfl

/-- Witness for C19: trustee 0 receives the honest matrix and a matrix with
other key material, other rows and the same recipient keys `20, 21` in the
first two entries of row 0. -/
theorem verify_shares_reads_own_row_witness :
    (KeyCeremony_Trustee_verify_shares 5 (nat_crypto 0 0) (word_codec 64) (sample_trustee 0)
        { len := 14, bytes := [3, 2, 10, 20, 10, 21, 11, 20, 11, 21, 12, 20, 12, 21] }).map
        (fun out => (out.result, out.out_message_rep)) =
      (KeyCeremony_Trustee_verify_shares 5 (nat_crypto 0 0) (word_codec 64) (sample_trustee 0)
        { len := 14, bytes := [3, 2, 98, 20, 99, 21, 0, 1, 2, 3, 4, 5, 6, 7] }).map
        (fun out => (out.result, out.out_message_rep)) :=
  verify_shares_reads_own_row 5 (nat_crypto 0 0) (word_codec 64) (sample_trustee 0)
    (sample_trustee 0)
    { len := 14, bytes := [3, 2, 10, 20, 10, 21, 11, 20, 11, 21, 12, 20, 12, 21] }
    { len := 14, bytes := [3, 2, 98, 20, 99, 21, 0, 1, 2, 3, 4, 5, 6, 7] }
    rfl rfl (fun _ _ => rfl) (by decide) (by decide)
    (fun i hi => by
      have : i < 2 := hi
      interval_cases i <;> rfl)

end Behaviour

end KeyCeremony
